import Mathlib

/-!
Shallow embedding of the transactional core of the `degen-terminal` Solana
program (a binary-outcome prediction-market exchange) and verification of
its specification claims.

Machine integers: Rust `u64` values are embedded as `Nat` together with the
explicit bound `U64_MAX`; every `checked_*` operation of the source is
mirrored by an `Option`-valued helper that fails exactly when the Rust
operation would return `None`.  Rust `i64` values (timestamps, realized
P&L) are embedded as `Int` with explicit `I64` bounds where the source uses
checked arithmetic.  Fallible instructions are embedded as `Except`-valued
functions; every `require!` of the source appears as a `guardE`.
-/

namespace Degen

/-- Largest value representable in a Rust `u64`. -/
def U64_MAX : Nat := 18446744073709551615

/-- Smallest value representable in a Rust `i64`. -/
def I64_MIN : Int := -9223372036854775808

/-- Largest value representable in a Rust `i64`. -/
def I64_MAX : Int := 9223372036854775807

/-- `u64::checked_mul`. -/
def checkedMul (a b : Nat) : Option Nat :=
  if a * b ≤ U64_MAX then some (a * b) else none

/-- `u64::checked_add`. -/
def checkedAdd (a b : Nat) : Option Nat :=
  if a + b ≤ U64_MAX then some (a + b) else none

/-- `u64::checked_sub`. -/
def checkedSub (a b : Nat) : Option Nat :=
  if b ≤ a then some (a - b) else none

/-- `u64::checked_div`. -/
def checkedDiv (a b : Nat) : Option Nat :=
  if b = 0 then none else some (a / b)

/-- `i64::checked_add`. -/
def i64CheckedAdd (a b : Int) : Option Int :=
  if I64_MIN ≤ a + b ∧ a + b ≤ I64_MAX then some (a + b) else none

/-- `i64::checked_sub`. -/
def i64CheckedSub (a b : Int) : Option Int :=
  if I64_MIN ≤ a - b ∧ a - b ≤ I64_MAX then some (a - b) else none

/-- The `as i64` cast of a `u64` value (two's-complement reinterpretation). -/
def u64ToI64 (n : Nat) : Int :=
  if n < 9223372036854775808 then (n : Int) else (n : Int) - 18446744073709551616

-- ============================================================================
-- Error taxonomy (src/errors.rs), restricted to the variants the embedded
-- instructions can raise.  `AccountNotInitialized` stands for the Anchor
-- framework error produced when a deallocated (closed) account is passed
-- again to an instruction; it is not a `DegenError` in the source but is
-- needed to model account validation of closed accounts.
-- ============================================================================

inductive DegenError where
  | ProtocolPaused
  | Unauthorized
  | MarketNotOpen
  | MarketClosing
  | MarketExpired
  | MarketNotExpired
  | MarketNotResolved
  | MarketAlreadyResolved
  | InvalidMarketParams
  | InvalidAsset
  | InvalidTimeframe
  | InvalidExpiry
  | InvalidPrice
  | InvalidSize
  | InvalidTickSize
  | OrderExpired
  | SameSide
  | OutcomeMismatch
  | SelfTrade
  | PriceMismatch
  | OrderNotActive
  | InsufficientShares
  | PositionLimitExceeded
  | PositionAlreadySettled
  | PositionNotFound
  | InsufficientBalance
  | InsufficientVaultBalance
  | VaultNotEmpty
  | TransferFailed
  | InvalidOraclePrice
  | MathOverflow
  | MathUnderflow
  | DivisionByZero
  | AccountNotInitialized
  deriving DecidableEq, Repr

/-- `require!(cond, err)` of Anchor. -/
def guardE (c : Prop) [Decidable c] (e : DegenError) : Except DegenError Unit :=
  if c then .ok () else .error e

/-- `opt.ok_or(err)?` of the source. -/
def liftOpt (o : Option α) (e : DegenError) : Except DegenError α :=
  match o with
  | some a => .ok a
  | none => .error e

-- ============================================================================
-- Enums (src/state.rs)
-- ============================================================================

inductive Side where
  | Bid
  | Ask
  deriving DecidableEq, Repr

inductive Outcome where
  | Yes
  | No
  deriving DecidableEq, Repr

inductive OrderType where
  | Limit
  | Market
  | IOC
  | FOK
  deriving DecidableEq, Repr

inductive MarketStatus where
  | Pending
  | Open
  | Closed
  | Resolved
  | Settled
  deriving DecidableEq, Repr

inductive OrderStatus where
  | Open
  | PartialFill
  | Filled
  | Cancelled
  | Expired
  deriving DecidableEq, Repr

inductive MarketOutcome where
  | Pending
  | Yes
  | No
  deriving DecidableEq, Repr

-- ============================================================================
-- Constants (src/state.rs)
-- ============================================================================

def USDC_MULTIPLIER : Nat := 1000000
def SHARE_MULTIPLIER : Nat := 1000000
def MIN_PRICE : Nat := 10000
def MAX_PRICE : Nat := 990000
def MIN_ORDER_SIZE : Nat := 1000
def MAX_ORDER_SIZE : Nat := 100000000000
def MAX_POSITION_SIZE : Nat := 500000000000
def TRADING_CLOSE_BUFFER : Int := 30
def MAX_ASSET_LEN : Nat := 10
def MAX_TIMEFRAME_LEN : Nat := 10

-- ============================================================================
-- Account state (src/state.rs).  Pubkeys are embedded as `Nat`; the default
-- pubkey `Pubkey::default()` is `0`.
-- ============================================================================

structure GlobalState where
  admin : Nat
  feeRecipient : Nat
  makerFeeBps : Nat
  takerFeeBps : Nat
  paused : Bool
  deriving DecidableEq, Repr

structure Market where
  id : Nat
  authority : Nat
  asset : String
  timeframe : String
  strikePrice : Nat
  finalPrice : Nat
  createdAt : Int
  expiryAt : Int
  resolvedAt : Int
  settledAt : Int
  status : MarketStatus
  outcome : MarketOutcome
  totalVolume : Nat
  totalTrades : Nat
  totalPositions : Nat
  settledPositions : Nat
  openInterest : Nat
  deriving DecidableEq, Repr

/-- `Market::is_trading_open` (src/state.rs). -/
def Market.isTradingOpen (m : Market) (currentTime : Int) : Prop :=
  m.status = MarketStatus.Open ∧ currentTime < m.expiryAt - TRADING_CLOSE_BUFFER

instance (m : Market) (t : Int) : Decidable (m.isTradingOpen t) := by
  unfold Market.isTradingOpen; infer_instance

structure UserPosition where
  owner : Nat
  market : Nat
  yesShares : Nat
  noShares : Nat
  yesCostBasis : Nat
  noCostBasis : Nat
  realizedPnl : Int
  settled : Bool
  payout : Nat
  deriving DecidableEq, Repr

/-- A freshly `init_if_needed`-created, zeroed `UserPosition` account. -/
def UserPosition.fresh : UserPosition :=
  { owner := 0, market := 0, yesShares := 0, noShares := 0,
    yesCostBasis := 0, noCostBasis := 0, realizedPnl := 0,
    settled := false, payout := 0 }

structure Order where
  owner : Nat
  market : Nat
  side : Side
  outcome : Outcome
  orderType : OrderType
  price : Nat
  size : Nat
  filledSize : Nat
  status : OrderStatus
  clientOrderId : Nat
  expiryTs : Int
  createdAt : Int
  lockedAmount : Nat
  deriving DecidableEq, Repr

/-- `Order::is_active` (src/state.rs). -/
def Order.isActive (o : Order) : Prop :=
  o.status = OrderStatus.Open ∨ o.status = OrderStatus.PartialFill

instance (o : Order) : Decidable o.isActive := by
  unfold Order.isActive; infer_instance

/-- `Order::remaining_size` (src/state.rs): `size.saturating_sub(filled_size)`. -/
def Order.remainingSize (o : Order) : Nat :=
  o.size - o.filledSize

-- ============================================================================
-- place_order (src/instructions/place_order.rs)
-- ============================================================================

structure PlaceOrderArgs where
  side : Side
  outcome : Outcome
  orderType : OrderType
  price : Nat
  size : Nat
  expiryTs : Int
  clientOrderId : Nat
  deriving DecidableEq, Repr

/--
`place_order`.  Inputs beyond the instruction arguments: the global config,
the market (whose account constraint `market.is_trading_open` is checked at
account validation), the market's key, the current time, the signer's key
and USDC balance.  On success, returns the created `Order` together with
the locked amount transferred from the user to the market vault.
-/
def placeOrder (gs : GlobalState) (market : Market) (marketKey : Nat)
    (now : Int) (userKey : Nat) (userUsdc : Nat) (args : PlaceOrderArgs) :
    Except DegenError (Order × Nat) := do
  -- account constraint on `market`
  guardE (market.isTradingOpen now) .MarketNotOpen
  guardE (¬ gs.paused = true) .ProtocolPaused
  guardE (MIN_PRICE ≤ args.price ∧ args.price ≤ MAX_PRICE) .InvalidPrice
  guardE (args.price % 10000 = 0) .InvalidTickSize
  guardE (MIN_ORDER_SIZE ≤ args.size ∧ args.size ≤ MAX_ORDER_SIZE) .InvalidSize
  if args.orderType = OrderType.Limit then
    guardE (args.expiryTs > now) .OrderExpired
  else
    pure ()
  let base := if args.side = Side.Bid then args.price else USDC_MULTIPLIER - args.price
  let p1 ← liftOpt (checkedMul base args.size) .MathOverflow
  let p2 ← liftOpt (checkedAdd p1 (SHARE_MULTIPLIER - 1)) .MathOverflow
  let lockAmount ← liftOpt (checkedDiv p2 SHARE_MULTIPLIER) .DivisionByZero
  guardE (userUsdc ≥ lockAmount) .InsufficientBalance
  pure ({ owner := userKey
          market := marketKey
          side := args.side
          outcome := args.outcome
          orderType := args.orderType
          price := args.price
          size := args.size
          filledSize := 0
          status := OrderStatus.Open
          clientOrderId := args.clientOrderId
          expiryTs := args.expiryTs
          createdAt := now
          lockedAmount := lockAmount }, lockAmount)

-- ============================================================================
-- cancel_order (src/instructions/cancel_order.rs) and
-- cancel_order_by_relayer (src/instructions/cancel_order_by_relayer.rs)
-- ============================================================================

/-- A SPL-token transfer out of a balance: fails when the balance is short. -/
def tokenTransfer (fromBal toBal amount : Nat) :
    Except DegenError (Nat × Nat) := do
  guardE (fromBal ≥ amount) .TransferFailed
  pure (fromBal - amount, toBal + amount)

/-- A token transfer that is skipped when the amount is zero
(`if taker_fee > 0 { ... }`, `if refund_amount > 0 { ... }`). -/
def transferIfPositive (fromBal toBal amount : Nat) :
    Except DegenError (Nat × Nat) :=
  if amount > 0 then tokenTransfer fromBal toBal amount
  else pure (fromBal, toBal)

/--
The refund computation shared verbatim by `cancel_order` and
`cancel_order_by_relayer`:
`locked_amount.checked_mul(remaining).unwrap_or(0).checked_div(size).unwrap_or(0)`
in the partially-filled branch.
-/
def cancelRefund (o : Order) : Nat :=
  if o.filledSize = 0 then
    o.lockedAmount
  else if o.filledSize ≥ o.size then
    0
  else
    let remaining := o.size - o.filledSize
    match checkedMul o.lockedAmount remaining with
    | some p => (checkedDiv p o.size).getD 0
    | none => 0

/--
`cancel_order`.  Returns `(refund, vault', userUsdc')`.  The account
constraints (`market.key == order.market`, `has_one = owner` with the owner
signing, `order.is_active()`) are embedded as guards.
-/
def cancelOrder (market : Market) (marketKey : Nat) (vault : Nat)
    (userUsdc : Nat) (order : Order) (signerKey : Nat) :
    Except DegenError (Nat × Nat × Nat) := do
  guardE (marketKey = order.market) .InvalidMarketParams
  guardE (order.owner = signerKey) .Unauthorized
  guardE order.isActive .OrderNotActive
  let refund := cancelRefund order
  let vu ← transferIfPositive vault userUsdc refund
  pure (refund, vu.1, vu.2)

/--
`cancel_order_by_relayer`.  Same refund logic; only the market authority may
call it, and only once `now ≥ expiry_at - TRADING_CLOSE_BUFFER`.
-/
def cancelOrderByRelayer (market : Market) (marketKey : Nat) (vault : Nat)
    (userUsdc : Nat) (order : Order) (signerKey : Nat) (now : Int) :
    Except DegenError (Nat × Nat × Nat) := do
  guardE (marketKey = order.market) .InvalidMarketParams
  guardE order.isActive .OrderNotActive
  guardE (signerKey = market.authority) .Unauthorized
  guardE (now ≥ market.expiryAt - TRADING_CLOSE_BUFFER) .MarketNotOpen
  let refund := cancelRefund order
  let vu ← transferIfPositive vault userUsdc refund
  pure (refund, vu.1, vu.2)

-- ============================================================================
-- execute_match (src/instructions/execute_match.rs)
-- ============================================================================

/--
The non-argument inputs of `execute_match`: global config, market state and
key, token balances of the vault, the fee recipient and both wallets,
optional stored `Order` accounts, both `init_if_needed` position accounts
(zeroed when freshly created), and the clock.
-/
structure MatchCtx where
  gs : GlobalState
  market : Market
  marketKey : Nat
  vault : Nat
  feeRecipient : Nat
  maker : Nat
  taker : Nat
  makerUsdc : Nat
  takerUsdc : Nat
  makerOrder : Option Order
  takerOrder : Option Order
  makerPosition : UserPosition
  takerPosition : UserPosition
  now : Int
  deriving DecidableEq, Repr

/--
The post-state of `execute_match` together with the values of the
`MatchExecuted` event (`outcome`, `price`, `size`, `yesCost`, `noCost`,
`takerFee`, escrow flags) and the internal `maker_cost`/`taker_cost` and
`is_maker_yes_buyer` values.
-/
structure MatchResult where
  market : Market
  vault : Nat
  feeRecipient : Nat
  makerUsdc : Nat
  takerUsdc : Nat
  makerOrder : Option Order
  takerOrder : Option Order
  makerPosition : UserPosition
  takerPosition : UserPosition
  outcome : Outcome
  price : Nat
  size : Nat
  yesCost : Nat
  noCost : Nat
  takerFee : Nat
  makerCost : Nat
  takerCost : Nat
  isMakerYesBuyer : Bool
  makerHasEscrow : Bool
  takerHasEscrow : Bool
  deriving DecidableEq, Repr

/-- The `(side, outcome, price, size, expiry)` tuple extracted for one party. -/
structure OrderData where
  side : Side
  outcome : Outcome
  price : Nat
  size : Nat
  expiryTs : Int
  deriving DecidableEq, Repr

/-- The order parameters a party contributes: the stored order if present,
else the inline args. -/
def orderDataOf (stored : Option Order) (args : PlaceOrderArgs) : OrderData :=
  match stored with
  | some o => ⟨o.side, o.outcome, o.price, o.size, o.expiryTs⟩
  | none => ⟨args.side, args.outcome, args.price, args.size, args.expiryTs⟩

/--
Extraction of order parameters for one party of `execute_match`:
`prefer the Order PDA if available, otherwise use the args`, with the
stored-order checks of the source.
-/
def extractOrderData (stored : Option Order) (args : PlaceOrderArgs)
    (ownerKey marketKey : Nat) : Except DegenError OrderData :=
  match stored with
  | some o => do
    guardE (o.owner = ownerKey) .Unauthorized
    guardE (o.market = marketKey) .InvalidMarketParams
    guardE o.isActive .OrderNotActive
    pure ⟨o.side, o.outcome, o.price, o.size, o.expiryTs⟩
  | none => pure ⟨args.side, args.outcome, args.price, args.size, args.expiryTs⟩

/--
The position-limit block of `execute_match`: the YES buyer's `yes_shares`
and the NO buyer's `no_shares` must not exceed `MAX_POSITION_SIZE` after
the trade (`checked_add` first, then the comparison, in source order).
-/
def positionLimitChecks (isMakerYesBuyer : Prop) [Decidable isMakerYesBuyer]
    (makerPosition takerPosition : UserPosition) (matchSize : Nat) :
    Except DegenError Unit :=
  if isMakerYesBuyer then do
    let a ← liftOpt (checkedAdd makerPosition.yesShares matchSize) .MathOverflow
    guardE (a ≤ MAX_POSITION_SIZE) .PositionLimitExceeded
    let b ← liftOpt (checkedAdd takerPosition.noShares matchSize) .MathOverflow
    guardE (b ≤ MAX_POSITION_SIZE) .PositionLimitExceeded
  else do
    let a ← liftOpt (checkedAdd takerPosition.yesShares matchSize) .MathOverflow
    guardE (a ≤ MAX_POSITION_SIZE) .PositionLimitExceeded
    let b ← liftOpt (checkedAdd makerPosition.noShares matchSize) .MathOverflow
    guardE (b ≤ MAX_POSITION_SIZE) .PositionLimitExceeded

/-- The stored-order fill update of `execute_match`. -/
def fillOrder (o : Order) (matchSize : Nat) : Except DegenError Order := do
  let f ← liftOpt (checkedAdd o.filledSize matchSize) .MathOverflow
  pure { o with
    filledSize := f
    status := if f ≥ o.size then OrderStatus.Filled else OrderStatus.PartialFill }

/-- The taker-fee computation of `execute_match`: floor of
`cost-of-taker's-leg × taker_fee_bps / 10_000`. -/
def computeTakerFee (isMakerYesBuyer : Prop) [Decidable isMakerYesBuyer]
    (yesCost noCost takerFeeBps : Nat) : Except DegenError Nat :=
  if isMakerYesBuyer then do
    let f1 ← liftOpt (checkedMul noCost takerFeeBps) .MathOverflow
    liftOpt (checkedDiv f1 10000) .DivisionByZero
  else do
    let f1 ← liftOpt (checkedMul yesCost takerFeeBps) .MathOverflow
    liftOpt (checkedDiv f1 10000) .DivisionByZero

/-- The `(maker_cost, taker_cost)` computation of `execute_match`: the
taker's leg additionally carries the taker fee. -/
def computeCosts (isMakerYesBuyer : Prop) [Decidable isMakerYesBuyer]
    (yesCost noCost takerFee : Nat) : Except DegenError (Nat × Nat) :=
  if isMakerYesBuyer then do
    let t ← liftOpt (checkedAdd noCost takerFee) .MathOverflow
    pure (yesCost, t)
  else do
    let t ← liftOpt (checkedAdd yesCost takerFee) .MathOverflow
    pure (noCost, t)

/-- The per-party deposit of `execute_match`: a party without a stored
(already escrowed) order pays its cost into the vault now. -/
def collectDeposit (hasEscrow : Bool) (fromBal vault cost : Nat) :
    Except DegenError (Nat × Nat) :=
  if ¬ hasEscrow = true then tokenTransfer fromBal vault cost
  else pure (fromBal, vault)

/-- The stored-order update step of `execute_match` (skipped for an inline
market-maker quote). -/
def updateStoredOrder (stored : Option Order) (matchSize : Nat) :
    Except DegenError (Option Order) :=
  match stored with
  | some o => do
    let o' ← fillOrder o matchSize
    pure (some o')
  | none => pure none

/-- The position-credit step of `execute_match`: the YES buyer's
`yes_shares`/`yes_cost_basis` and the NO buyer's `no_shares`/`no_cost_basis`
increase; the taker's leg carries the fee in its cost basis. -/
def applyPositionDeltas (isMakerYesBuyer : Prop) [Decidable isMakerYesBuyer]
    (makerPos takerPos : UserPosition) (matchSize yesCost noCost takerFee : Nat) :
    Except DegenError (UserPosition × UserPosition) :=
  if isMakerYesBuyer then do
    let mys ← liftOpt (checkedAdd makerPos.yesShares matchSize) .MathOverflow
    let myc ← liftOpt (checkedAdd makerPos.yesCostBasis yesCost) .MathOverflow
    let tns ← liftOpt (checkedAdd takerPos.noShares matchSize) .MathOverflow
    let tfc ← liftOpt (checkedAdd noCost takerFee) .MathOverflow
    let tnc ← liftOpt (checkedAdd takerPos.noCostBasis tfc) .MathOverflow
    pure ({ makerPos with yesShares := mys, yesCostBasis := myc },
          { takerPos with noShares := tns, noCostBasis := tnc })
  else do
    let tys ← liftOpt (checkedAdd takerPos.yesShares matchSize) .MathOverflow
    let tfc ← liftOpt (checkedAdd yesCost takerFee) .MathOverflow
    let tyc ← liftOpt (checkedAdd takerPos.yesCostBasis tfc) .MathOverflow
    let mns ← liftOpt (checkedAdd makerPos.noShares matchSize) .MathOverflow
    let mnc ← liftOpt (checkedAdd makerPos.noCostBasis noCost) .MathOverflow
    pure ({ makerPos with noShares := mns, noCostBasis := mnc },
          { takerPos with yesShares := tys, yesCostBasis := tyc })

/--
The lazy `init_if_needed` initialization of a position: a fresh (zeroed)
position has `owner == Pubkey::default()`; first touch sets owner/market
and increments `market.total_positions` (a raw `u32` increment).
-/
def initPositionIfNeeded (p : UserPosition) (ownerKey marketKey : Nat)
    (totalPositions : Nat) : UserPosition × Nat :=
  if p.owner = 0 then
    ({ p with owner := ownerKey, market := marketKey },
     (totalPositions + 1) % 4294967296)
  else
    (p, totalPositions)

/-- `execute_match` (opening trade). -/
def executeMatch (ctx : MatchCtx) (makerArgs takerArgs : PlaceOrderArgs)
    (matchSize : Nat) : Except DegenError MatchResult := do
  let makerHasEscrow := ctx.makerOrder.isSome
  let takerHasEscrow := ctx.takerOrder.isSome
  let md ← extractOrderData ctx.makerOrder makerArgs ctx.maker ctx.marketKey
  let td ← extractOrderData ctx.takerOrder takerArgs ctx.taker ctx.marketKey
  guardE (¬ ctx.gs.paused = true) .ProtocolPaused
  guardE (ctx.market.status = MarketStatus.Open) .MarketNotOpen
  guardE (ctx.market.isTradingOpen ctx.now) .MarketClosing
  guardE (¬ ctx.maker = ctx.taker) .SelfTrade
  guardE (¬ md.side = td.side) .SameSide
  guardE (md.outcome = td.outcome) .OutcomeMismatch
  guardE (md.expiryTs > ctx.now) .OrderExpired
  guardE (td.expiryTs > ctx.now) .OrderExpired
  guardE (md.price ≥ MIN_PRICE ∧ md.price ≤ MAX_PRICE) .InvalidPrice
  guardE (td.price ≥ MIN_PRICE ∧ td.price ≤ MAX_PRICE) .InvalidPrice
  guardE (md.size ≥ MIN_ORDER_SIZE ∧ md.size ≤ MAX_ORDER_SIZE) .InvalidSize
  guardE (td.size ≥ MIN_ORDER_SIZE ∧ td.size ≤ MAX_ORDER_SIZE) .InvalidSize
  guardE (matchSize ≥ MIN_ORDER_SIZE ∧ matchSize ≤ MAX_ORDER_SIZE) .InvalidSize
  let executionPrice := md.price
  -- orders must cross: `taker_price <= maker_price` for a maker Bid,
  -- `taker_price >= maker_price` for a maker Ask
  guardE (if md.side = Side.Bid then td.price ≤ md.price else td.price ≥ md.price)
    .PriceMismatch
  let outcome := md.outcome
  let yesPrice := if outcome = Outcome.Yes then executionPrice
                  else USDC_MULTIPLIER - executionPrice
  let noPrice := USDC_MULTIPLIER - yesPrice
  let y1 ← liftOpt (checkedMul yesPrice matchSize) .MathOverflow
  let y2 ← liftOpt (checkedAdd y1 (SHARE_MULTIPLIER - 1)) .MathOverflow
  let yesCost ← liftOpt (checkedDiv y2 SHARE_MULTIPLIER) .DivisionByZero
  let n1 ← liftOpt (checkedMul noPrice matchSize) .MathOverflow
  let n2 ← liftOpt (checkedAdd n1 (SHARE_MULTIPLIER - 1)) .MathOverflow
  let noCost ← liftOpt (checkedDiv n2 SHARE_MULTIPLIER) .DivisionByZero
  let isMakerYesBuyer :=
    (md.side = Side.Bid ∧ outcome = Outcome.Yes) ∨
    (md.side = Side.Ask ∧ outcome = Outcome.No)
  positionLimitChecks isMakerYesBuyer ctx.makerPosition ctx.takerPosition matchSize
  let takerFee ← computeTakerFee isMakerYesBuyer yesCost noCost ctx.gs.takerFeeBps
  let mtCosts ← computeCosts isMakerYesBuyer yesCost noCost takerFee
  let makerCost := mtCosts.1
  let takerCost := mtCosts.2
  -- Token transfers: both parties without escrow deposit into the vault
  let muv ← collectDeposit makerHasEscrow ctx.makerUsdc ctx.vault makerCost
  let makerUsdc1 := muv.1
  let vault1 := muv.2
  let tuv ← collectDeposit takerHasEscrow ctx.takerUsdc vault1 takerCost
  let takerUsdc1 := tuv.1
  let vault2 := tuv.2
  -- Fee transfer out of the vault
  let vfr ← transferIfPositive vault2 ctx.feeRecipient takerFee
  let vault3 := vfr.1
  let feeRecipient1 := vfr.2
  -- Update Order PDAs
  let makerOrder1 ← updateStoredOrder ctx.makerOrder matchSize
  let takerOrder1 ← updateStoredOrder ctx.takerOrder matchSize
  -- Initialize positions if needed
  let mptp :=
    initPositionIfNeeded ctx.makerPosition ctx.maker ctx.marketKey
      ctx.market.totalPositions
  let makerPos1 := mptp.1
  let tp1 := mptp.2
  let tptp := initPositionIfNeeded ctx.takerPosition ctx.taker ctx.marketKey tp1
  let takerPos1 := tptp.1
  let tp2 := tptp.2
  -- Update positions: mint new shares
  let mtPos ← applyPositionDeltas isMakerYesBuyer makerPos1 takerPos1
    matchSize yesCost noCost takerFee
  let makerPos2 := mtPos.1
  let takerPos2 := mtPos.2
  -- Update market stats
  let oi ← liftOpt (checkedAdd ctx.market.openInterest matchSize) .MathOverflow
  let vsum ← liftOpt (checkedAdd yesCost noCost) .MathOverflow
  let tv ← liftOpt (checkedAdd ctx.market.totalVolume vsum) .MathOverflow
  let tt ← liftOpt (checkedAdd ctx.market.totalTrades 1) .MathOverflow
  pure { market := { ctx.market with
           totalPositions := tp2
           openInterest := oi
           totalVolume := tv
           totalTrades := tt }
         vault := vault3
         feeRecipient := feeRecipient1
         makerUsdc := makerUsdc1
         takerUsdc := takerUsdc1
         makerOrder := makerOrder1
         takerOrder := takerOrder1
         makerPosition := makerPos2
         takerPosition := takerPos2
         outcome := outcome
         price := executionPrice
         size := matchSize
         yesCost := yesCost
         noCost := noCost
         takerFee := takerFee
         makerCost := makerCost
         takerCost := takerCost
         isMakerYesBuyer := decide isMakerYesBuyer
         makerHasEscrow := makerHasEscrow
         takerHasEscrow := takerHasEscrow }

-- ============================================================================
-- execute_close (src/instructions/execute_close.rs)
-- ============================================================================

structure CloseTradeArgs where
  outcome : Outcome
  price : Nat
  size : Nat
  deriving DecidableEq, Repr

/-- The non-argument inputs of `execute_close`. -/
structure CloseCtx where
  gs : GlobalState
  market : Market
  marketKey : Nat
  feeRecipient : Nat
  buyer : Nat
  seller : Nat
  buyerPosition : UserPosition
  sellerPosition : UserPosition
  buyerUsdc : Nat
  sellerUsdc : Nat
  now : Int
  deriving DecidableEq, Repr

/--
The post-state of `execute_close` together with the values of the
`CloseExecuted` event (`transfer_amount`, `fee`, `seller_realized_pnl`).
-/
structure CloseResult where
  market : Market
  feeRecipient : Nat
  buyerPosition : UserPosition
  sellerPosition : UserPosition
  buyerUsdc : Nat
  sellerUsdc : Nat
  transferAmount : Nat
  fee : Nat
  realizedPnl : Int
  deriving DecidableEq, Repr

/-- The seller's share count for the traded outcome
(`match args.outcome { Yes => yes_shares, No => no_shares }`). -/
def UserPosition.sharesOf (p : UserPosition) (o : Outcome) : Nat :=
  match o with
  | Outcome.Yes => p.yesShares
  | Outcome.No => p.noShares

/-- The seller's cost basis for the traded outcome
(`match args.outcome { Yes => yes_cost_basis, No => no_cost_basis }`). -/
def UserPosition.costBasisOf (p : UserPosition) (o : Outcome) : Nat :=
  match o with
  | Outcome.Yes => p.yesCostBasis
  | Outcome.No => p.noCostBasis

/-- `execute_close` (closing trade). -/
def executeClose (ctx : CloseCtx) (args : CloseTradeArgs) :
    Except DegenError CloseResult := do
  -- account constraints on the two position PDAs
  guardE (ctx.buyerPosition.owner = ctx.buyer) .Unauthorized
  guardE (ctx.sellerPosition.owner = ctx.seller) .Unauthorized
  guardE (¬ ctx.gs.paused = true) .ProtocolPaused
  guardE (ctx.market.status = MarketStatus.Open) .MarketNotOpen
  guardE (ctx.market.isTradingOpen ctx.now) .MarketClosing
  guardE (¬ ctx.buyer = ctx.seller) .SelfTrade
  guardE (args.price ≥ MIN_PRICE ∧ args.price ≤ MAX_PRICE) .InvalidPrice
  guardE (args.size ≥ MIN_ORDER_SIZE ∧ args.size ≤ MAX_ORDER_SIZE) .InvalidSize
  let sellerShares :=
    match args.outcome with
    | Outcome.Yes => ctx.sellerPosition.yesShares
    | Outcome.No => ctx.sellerPosition.noShares
  guardE (sellerShares ≥ args.size) .InsufficientShares
  let buyerNewShares ←
    match args.outcome with
    | Outcome.Yes =>
      liftOpt (checkedAdd ctx.buyerPosition.yesShares args.size) .MathOverflow
    | Outcome.No =>
      liftOpt (checkedAdd ctx.buyerPosition.noShares args.size) .MathOverflow
  guardE (buyerNewShares ≤ MAX_POSITION_SIZE) .PositionLimitExceeded
  let t1 ← liftOpt (checkedMul args.price args.size) .MathOverflow
  let t2 ← liftOpt (checkedAdd t1 (SHARE_MULTIPLIER - 1)) .MathOverflow
  let transferAmount ← liftOpt (checkedDiv t2 SHARE_MULTIPLIER) .DivisionByZero
  let f1 ← liftOpt (checkedMul transferAmount ctx.gs.takerFeeBps) .MathOverflow
  let fee ← liftOpt (checkedDiv f1 10000) .DivisionByZero
  let sellerReceives := transferAmount - fee
  -- buyer pays the seller, then the fee recipient
  let bs ← tokenTransfer ctx.buyerUsdc ctx.sellerUsdc sellerReceives
  let buyerUsdc1 := bs.1
  let sellerUsdc1 := bs.2
  let bf ← transferIfPositive buyerUsdc1 ctx.feeRecipient fee
  let buyerUsdc2 := bf.1
  let feeRecipient1 := bf.2
  -- seller's realized P&L
  let sellerCostBasis :=
    match args.outcome with
    | Outcome.Yes => ctx.sellerPosition.yesCostBasis
    | Outcome.No => ctx.sellerPosition.noCostBasis
  let costPerShare :=
    if sellerShares > 0 then (checkedDiv sellerCostBasis sellerShares).getD 0
    else 0
  let c1 ← liftOpt (checkedMul costPerShare args.size) .MathOverflow
  let costBasisSold ← liftOpt (checkedDiv c1 SHARE_MULTIPLIER) .DivisionByZero
  let realizedPnl :=
    (i64CheckedSub (u64ToI64 transferAmount) (u64ToI64 costBasisSold)).getD 0
  -- update seller position
  let sellerPos1 ←
    match args.outcome with
    | Outcome.Yes => do
      let ys ← liftOpt (checkedSub ctx.sellerPosition.yesShares args.size) .MathOverflow
      let cr1 ← liftOpt (checkedMul sellerCostBasis args.size) .MathOverflow
      let costReduction ← liftOpt (checkedDiv cr1 sellerShares) .DivisionByZero
      pure { ctx.sellerPosition with
        yesShares := ys
        yesCostBasis := ctx.sellerPosition.yesCostBasis - costReduction }
    | Outcome.No => do
      let ns ← liftOpt (checkedSub ctx.sellerPosition.noShares args.size) .MathOverflow
      let cr1 ← liftOpt (checkedMul sellerCostBasis args.size) .MathOverflow
      let costReduction ← liftOpt (checkedDiv cr1 sellerShares) .DivisionByZero
      pure { ctx.sellerPosition with
        noShares := ns
        noCostBasis := ctx.sellerPosition.noCostBasis - costReduction }
  let sellerPos2 :=
    { sellerPos1 with
      realizedPnl :=
        (i64CheckedAdd sellerPos1.realizedPnl realizedPnl).getD sellerPos1.realizedPnl }
  -- update buyer position
  let buyerTotalCost ← liftOpt (checkedAdd transferAmount fee) .MathOverflow
  let buyerPos1 ←
    match args.outcome with
    | Outcome.Yes => do
      let bs ← liftOpt (checkedAdd ctx.buyerPosition.yesShares args.size) .MathOverflow
      let bc ← liftOpt (checkedAdd ctx.buyerPosition.yesCostBasis buyerTotalCost) .MathOverflow
      pure { ctx.buyerPosition with yesShares := bs, yesCostBasis := bc }
    | Outcome.No => do
      let bs ← liftOpt (checkedAdd ctx.buyerPosition.noShares args.size) .MathOverflow
      let bc ← liftOpt (checkedAdd ctx.buyerPosition.noCostBasis buyerTotalCost) .MathOverflow
      pure { ctx.buyerPosition with noShares := bs, noCostBasis := bc }
  -- market stats
  let tv ← liftOpt (checkedAdd ctx.market.totalVolume transferAmount) .MathOverflow
  let tt ← liftOpt (checkedAdd ctx.market.totalTrades 1) .MathOverflow
  pure { market := { ctx.market with totalVolume := tv, totalTrades := tt }
         feeRecipient := feeRecipient1
         buyerPosition := buyerPos1
         sellerPosition := sellerPos2
         buyerUsdc := buyerUsdc2
         sellerUsdc := sellerUsdc1
         transferAmount := transferAmount
         fee := fee
         realizedPnl := realizedPnl }

-- ============================================================================
-- settle_positions (src/instructions/settle_positions.rs)
-- ============================================================================

/-- The payout transfer of `settle_positions`: skipped when the payout is
zero, and explicitly checks the vault balance first. -/
def vaultPayout (vault userUsdc payout : Nat) : Except DegenError (Nat × Nat) :=
  if payout > 0 then do
    guardE (vault ≥ payout) .InsufficientVaultBalance
    pure (vault - payout, userUsdc + payout)
  else
    pure (vault, userUsdc)

/--
`settle_positions`.  The position account is passed as an `Option`: `none`
models a position account that no longer exists (the instruction closes the
account via `close = authority`, so a second attempt fails Anchor's account
validation before the handler runs).  Returns
`(market', vault', userUsdc', payout)`; the settled position account is
deallocated.
-/
def settlePositions (market : Market) (marketKey : Nat) (vault : Nat)
    (userUsdc : Nat) (position? : Option UserPosition) (now : Int) :
    Except DegenError (Market × Nat × Nat × Nat) := do
  let position ← liftOpt position? .AccountNotInitialized
  guardE (position.market = marketKey) .InvalidMarketParams
  guardE (market.status = MarketStatus.Resolved) .MarketNotResolved
  guardE (¬ market.outcome = MarketOutcome.Pending) .MarketNotResolved
  guardE (¬ position.settled = true) .PositionAlreadySettled
  let payout ←
    match market.outcome with
    | MarketOutcome.Yes => pure position.yesShares
    | MarketOutcome.No => pure position.noShares
    | MarketOutcome.Pending => Except.error DegenError.MarketNotResolved
  let vu ← vaultPayout vault userUsdc payout
  let vault1 := vu.1
  let userUsdc1 := vu.2
  let sp := (market.settledPositions + 1) % 4294967296
  let market1 :=
    if sp ≥ market.totalPositions then
      { market with
        settledPositions := sp
        status := MarketStatus.Settled
        settledAt := now }
    else
      { market with settledPositions := sp }
  pure (market1, vault1, userUsdc1, payout)

-- ============================================================================
-- resolve_market (src/instructions/resolve_market.rs)
-- ============================================================================

/--
`resolve_market`.  `authority` is the signing caller; the accounts struct
places no constraint on it and the handler never reads it.
-/
def resolveMarket (market : Market) (now : Int) (outcome : Nat)
    (finalPrice : Nat) (authority : Nat) : Except DegenError Market := do
  guardE (now ≥ market.expiryAt) .MarketNotExpired
  guardE (market.status = MarketStatus.Open ∨ market.status = MarketStatus.Closed)
    .MarketAlreadyResolved
  guardE (outcome ≤ 1) .InvalidMarketParams
  guardE (finalPrice > 0) .InvalidOraclePrice
  pure { market with
    finalPrice := finalPrice
    resolvedAt := now
    status := MarketStatus.Resolved
    outcome := if outcome = 0 then MarketOutcome.Yes else MarketOutcome.No }

-- ============================================================================
-- initialize_market (src/instructions/initialize_market.rs)
-- ============================================================================

/--
`initialize_market`.  `marketId` is the incremented
`global_state.total_markets` counter.
-/
def initializeMarket (asset timeframe : String) (strikePrice : Nat)
    (expiryTs : Int) (now : Int) (authority : Nat) (marketId : Nat) :
    Except DegenError Market := do
  guardE (asset.length ≤ MAX_ASSET_LEN) .InvalidAsset
  guardE (timeframe.length ≤ MAX_TIMEFRAME_LEN) .InvalidTimeframe
  guardE (expiryTs > now + 60) .InvalidExpiry
  guardE (asset = "BTC" ∨ asset = "ETH" ∨ asset = "SOL") .InvalidAsset
  guardE (timeframe = "5m" ∨ timeframe = "15m" ∨ timeframe = "1h" ∨
          timeframe = "4h" ∨ timeframe = "24h") .InvalidTimeframe
  pure { id := marketId
         authority := authority
         asset := asset
         timeframe := timeframe
         strikePrice := strikePrice
         finalPrice := 0
         createdAt := now
         expiryAt := expiryTs
         resolvedAt := 0
         settledAt := 0
         status := if strikePrice > 0 then MarketStatus.Open else MarketStatus.Pending
         outcome := MarketOutcome.Pending
         totalVolume := 0
         totalTrades := 0
         totalPositions := 0
         settledPositions := 0
         openInterest := 0 }

-- ============================================================================
-- Inversion lemmas for the embedded monadic operations
-- ============================================================================

theorem bindOk {α β : Type} {x : Except DegenError α} {f : α → Except DegenError β} {b : β}
    (h : (x >>= f) = .ok b) : ∃ a, x = .ok a ∧ f a = .ok b := by
  cases x with
  | ok a => exact ⟨a, rfl, h⟩
  | error e => exact absurd h (by simp [Bind.bind, Except.bind])

theorem guardE_ok {c : Prop} [Decidable c] {e : DegenError} {u : Unit}
    (h : guardE c e = .ok u) : c := by
  unfold guardE at h
  split at h
  · assumption
  · exact Except.noConfusion h

theorem guardE_passes {c : Prop} [Decidable c] {e : DegenError} (hc : c) :
    guardE c e = .ok () := by
  unfold guardE
  exact if_pos hc

theorem liftOpt_ok {α : Type} {o : Option α} {e : DegenError} {a : α}
    (h : liftOpt o e = .ok a) : o = some a := by
  cases o with
  | some x => simpa [liftOpt] using h
  | none => exact absurd h (by simp [liftOpt])

theorem checkedMul_some {a b x : Nat} (h : checkedMul a b = some x) :
    x = a * b ∧ a * b ≤ U64_MAX := by
  unfold checkedMul at h
  split at h
  · cases h; exact ⟨rfl, by assumption⟩
  · exact Option.noConfusion h

theorem checkedAdd_some {a b x : Nat} (h : checkedAdd a b = some x) :
    x = a + b ∧ a + b ≤ U64_MAX := by
  unfold checkedAdd at h
  split at h
  · cases h; exact ⟨rfl, by assumption⟩
  · exact Option.noConfusion h

theorem checkedSub_some {a b x : Nat} (h : checkedSub a b = some x) :
    x = a - b ∧ b ≤ a := by
  unfold checkedSub at h
  split at h
  · cases h; exact ⟨rfl, by assumption⟩
  · exact Option.noConfusion h

theorem checkedDiv_some {a b x : Nat} (h : checkedDiv a b = some x) :
    x = a / b ∧ b ≠ 0 := by
  unfold checkedDiv at h
  split at h
  · exact Option.noConfusion h
  · cases h; exact ⟨rfl, by assumption⟩

theorem pureOk {α : Type} {a b : α} (h : (pure a : Except DegenError α) = .ok b) :
    a = b := by
  simpa [pure, Except.pure] using h

theorem extractOrderData_ok {stored : Option Order} {args : PlaceOrderArgs}
    {ownerKey marketKey : Nat} {d : OrderData}
    (h : extractOrderData stored args ownerKey marketKey = .ok d) :
    d = orderDataOf stored args ∧
    ∀ o, stored = some o → o.owner = ownerKey ∧ o.market = marketKey ∧ o.isActive := by
  cases stored with
  | some o =>
    unfold extractOrderData at h
    obtain ⟨_, h1, h⟩ := bindOk h
    obtain ⟨_, h2, h⟩ := bindOk h
    obtain ⟨_, h3, h⟩ := bindOk h
    replace h := pureOk h
    subst h
    exact ⟨rfl, by rintro o' ⟨rfl⟩; exact ⟨guardE_ok h1, guardE_ok h2, guardE_ok h3⟩⟩
  | none =>
    unfold extractOrderData at h
    replace h := pureOk h
    subst h
    exact ⟨rfl, by rintro o' h'; cases h'⟩

theorem tokenTransfer_ok {a b amt : Nat} {r : Nat × Nat}
    (h : tokenTransfer a b amt = .ok r) :
    r = (a - amt, b + amt) ∧ amt ≤ a := by
  unfold tokenTransfer at h
  obtain ⟨_, h1, h⟩ := bindOk h
  replace h := pureOk h
  exact ⟨h.symm, guardE_ok h1⟩

theorem computeTakerFee_ok {c : Prop} [Decidable c] {yc nc bps tf : Nat}
    (h : computeTakerFee c yc nc bps = .ok tf) :
    tf = (if c then nc else yc) * bps / 10000 := by
  unfold computeTakerFee at h
  split at h <;> rename_i hc
  · obtain ⟨f1, hf1, h⟩ := bindOk h
    obtain ⟨he, _⟩ := checkedMul_some (liftOpt_ok hf1)
    obtain ⟨hd, _⟩ := checkedDiv_some (liftOpt_ok h)
    rw [if_pos hc]; omega
  · obtain ⟨f1, hf1, h⟩ := bindOk h
    obtain ⟨he, _⟩ := checkedMul_some (liftOpt_ok hf1)
    obtain ⟨hd, _⟩ := checkedDiv_some (liftOpt_ok h)
    rw [if_neg hc]; omega

theorem computeCosts_ok {c : Prop} [Decidable c] {yc nc tf : Nat} {p : Nat × Nat}
    (h : computeCosts c yc nc tf = .ok p) :
    p.1 = (if c then yc else nc) ∧ p.2 = (if c then nc else yc) + tf := by
  unfold computeCosts at h
  split at h <;> rename_i hc
  · obtain ⟨t, ht, h⟩ := bindOk h
    obtain ⟨he, _⟩ := checkedAdd_some (liftOpt_ok ht)
    replace h := pureOk h
    cases h
    rw [if_pos hc, if_pos hc]
    exact ⟨rfl, by omega⟩
  · obtain ⟨t, ht, h⟩ := bindOk h
    obtain ⟨he, _⟩ := checkedAdd_some (liftOpt_ok ht)
    replace h := pureOk h
    cases h
    rw [if_neg hc, if_neg hc]
    exact ⟨rfl, by omega⟩

theorem collectDeposit_ok {esc : Bool} {fromBal vault cost : Nat} {p : Nat × Nat}
    (h : collectDeposit esc fromBal vault cost = .ok p) :
    p.2 = vault + (if esc = true then 0 else cost) ∧
    p.1 + p.2 = fromBal + vault ∧ p.1 ≤ fromBal := by
  unfold collectDeposit at h
  split at h <;> rename_i hc
  · obtain ⟨hp, hle⟩ := tokenTransfer_ok h
    cases hp
    rw [if_neg hc]
    exact ⟨rfl, by omega, by omega⟩
  · replace h := pureOk h
    cases h
    rw [if_pos (not_not.mp hc)]
    exact ⟨by omega, rfl, le_refl _⟩

theorem transferIfPositive_ok {fromBal toBal amt : Nat} {p : Nat × Nat}
    (h : transferIfPositive fromBal toBal amt = .ok p) :
    p.1 + amt = fromBal ∧ p.2 = toBal + amt ∧ amt ≤ fromBal := by
  unfold transferIfPositive at h
  split at h <;> rename_i hc
  · obtain ⟨hp, hle⟩ := tokenTransfer_ok h
    cases hp
    exact ⟨by omega, rfl, hle⟩
  · replace h := pureOk h
    cases h
    have : amt = 0 := by omega
    subst this
    exact ⟨by omega, by omega, by omega⟩

theorem updateStoredOrder_ok {stored : Option Order} {ms : Nat} {res : Option Order}
    (h : updateStoredOrder stored ms = .ok res) :
    (stored = none → res = none) ∧
    (∀ o, stored = some o →
      o.filledSize + ms ≤ U64_MAX ∧
      res = some { o with
        filledSize := o.filledSize + ms
        status := if o.filledSize + ms ≥ o.size then OrderStatus.Filled
                  else OrderStatus.PartialFill }) := by
  cases stored with
  | none =>
    unfold updateStoredOrder at h
    replace h := pureOk h
    exact ⟨fun _ => h.symm, by rintro o ⟨⟩⟩
  | some o =>
    unfold updateStoredOrder fillOrder at h
    obtain ⟨o', ho', h⟩ := bindOk h
    obtain ⟨f, hf, ho'⟩ := bindOk ho'
    obtain ⟨hfe, hfle⟩ := checkedAdd_some (liftOpt_ok hf)
    replace ho' := pureOk ho'
    replace h := pureOk h
    subst hfe
    refine ⟨by rintro ⟨⟩, ?_⟩
    rintro o'' ⟨rfl⟩
    exact ⟨hfle, by rw [← h, ← ho']⟩

theorem executeMatch_ok {ctx : MatchCtx} {ma ta : PlaceOrderArgs} {ms : Nat}
    {r : MatchResult} (h : executeMatch ctx ma ta ms = .ok r) :
    r.outcome = (orderDataOf ctx.makerOrder ma).outcome ∧
    r.price = (orderDataOf ctx.makerOrder ma).price ∧
    r.size = ms ∧
    r.yesCost = ((if r.outcome = Outcome.Yes then r.price
                  else USDC_MULTIPLIER - r.price) * ms +
                 (SHARE_MULTIPLIER - 1)) / SHARE_MULTIPLIER ∧
    r.noCost = ((USDC_MULTIPLIER -
                 (if r.outcome = Outcome.Yes then r.price
                  else USDC_MULTIPLIER - r.price)) * ms +
                (SHARE_MULTIPLIER - 1)) / SHARE_MULTIPLIER ∧
    r.isMakerYesBuyer =
      decide ((orderDataOf ctx.makerOrder ma).side = Side.Bid ∧
              (orderDataOf ctx.makerOrder ma).outcome = Outcome.Yes ∨
              (orderDataOf ctx.makerOrder ma).side = Side.Ask ∧
              (orderDataOf ctx.makerOrder ma).outcome = Outcome.No) ∧
    r.takerFee = (if r.isMakerYesBuyer = true then r.noCost else r.yesCost) *
                 ctx.gs.takerFeeBps / 10000 ∧
    r.makerCost = (if r.isMakerYesBuyer = true then r.yesCost else r.noCost) ∧
    r.takerCost = (if r.isMakerYesBuyer = true then r.noCost else r.yesCost) +
                  r.takerFee ∧
    r.makerHasEscrow = ctx.makerOrder.isSome ∧
    r.takerHasEscrow = ctx.takerOrder.isSome ∧
    r.vault + r.takerFee =
      ctx.vault + (if ctx.makerOrder.isSome = true then 0 else r.makerCost) +
      (if ctx.takerOrder.isSome = true then 0 else r.takerCost) ∧
    r.feeRecipient = ctx.feeRecipient + r.takerFee ∧
    r.makerUsdc + r.takerUsdc + r.vault + r.feeRecipient =
      ctx.makerUsdc + ctx.takerUsdc + ctx.vault + ctx.feeRecipient ∧
    MIN_PRICE ≤ (orderDataOf ctx.makerOrder ma).price ∧
    (orderDataOf ctx.makerOrder ma).price ≤ MAX_PRICE ∧
    MIN_PRICE ≤ (orderDataOf ctx.takerOrder ta).price ∧
    (orderDataOf ctx.takerOrder ta).price ≤ MAX_PRICE ∧
    MIN_ORDER_SIZE ≤ ms ∧ ms ≤ MAX_ORDER_SIZE ∧
    (∀ o, ctx.makerOrder = some o → o.isActive ∧
      o.filledSize + ms ≤ U64_MAX ∧
      r.makerOrder = some { o with
        filledSize := o.filledSize + ms
        status := if o.filledSize + ms ≥ o.size then OrderStatus.Filled
                  else OrderStatus.PartialFill }) ∧
    (∀ o, ctx.takerOrder = some o → o.isActive ∧
      o.filledSize + ms ≤ U64_MAX ∧
      r.takerOrder = some { o with
        filledSize := o.filledSize + ms
        status := if o.filledSize + ms ≥ o.size then OrderStatus.Filled
                  else OrderStatus.PartialFill }) := by
  unfold executeMatch at h
  obtain ⟨md, hmd, h⟩ := bindOk h
  obtain ⟨td, htd, h⟩ := bindOk h
  obtain ⟨hmde, hmord⟩ := extractOrderData_ok hmd
  obtain ⟨htde, htord⟩ := extractOrderData_ok htd
  subst hmde; subst htde
  obtain ⟨_, hg1, h⟩ := bindOk h
  obtain ⟨_, hg2, h⟩ := bindOk h
  obtain ⟨_, hg3, h⟩ := bindOk h
  obtain ⟨_, hg4, h⟩ := bindOk h
  obtain ⟨_, hg5, h⟩ := bindOk h
  obtain ⟨_, hg6, h⟩ := bindOk h
  obtain ⟨_, hg7, h⟩ := bindOk h
  obtain ⟨_, hg8, h⟩ := bindOk h
  obtain ⟨_, hg9, h⟩ := bindOk h
  obtain ⟨_, hg10, h⟩ := bindOk h
  obtain ⟨_, hg11, h⟩ := bindOk h
  obtain ⟨_, hg12, h⟩ := bindOk h
  obtain ⟨_, hg13, h⟩ := bindOk h
  obtain ⟨_, hg14, h⟩ := bindOk h
  obtain ⟨y1, hy1, h⟩ := bindOk h
  obtain ⟨y2, hy2, h⟩ := bindOk h
  obtain ⟨yc, hyc, h⟩ := bindOk h
  obtain ⟨n1, hn1, h⟩ := bindOk h
  obtain ⟨n2, hn2, h⟩ := bindOk h
  obtain ⟨nc, hnc, h⟩ := bindOk h
  obtain ⟨_, hpl, h⟩ := bindOk h
  obtain ⟨tf, htf, h⟩ := bindOk h
  obtain ⟨mtc, hmtc, h⟩ := bindOk h
  obtain ⟨muv, hmu, h⟩ := bindOk h
  obtain ⟨tuv, htu, h⟩ := bindOk h
  obtain ⟨vfr, hvf, h⟩ := bindOk h
  obtain ⟨mo1, hmo1, h⟩ := bindOk h
  obtain ⟨to1, hto1, h⟩ := bindOk h
  obtain ⟨mtp, hmtp, h⟩ := bindOk h
  obtain ⟨oi, hoi, h⟩ := bindOk h
  obtain ⟨vs, hvs, h⟩ := bindOk h
  obtain ⟨tv, htv, h⟩ := bindOk h
  obtain ⟨tt, htt, h⟩ := bindOk h
  replace h := pureOk h
  cases h
  dsimp only
  simp only [USDC_MULTIPLIER, SHARE_MULTIPLIER, MIN_PRICE, MAX_PRICE,
    MIN_ORDER_SIZE, MAX_ORDER_SIZE, U64_MAX] at hg9 hg10 hg13 hy1 hy2 hyc hn1 hn2 hnc ⊢
  obtain ⟨hy1e, hy1le⟩ := checkedMul_some (liftOpt_ok hy1)
  obtain ⟨hy2e, hy2le⟩ := checkedAdd_some (liftOpt_ok hy2)
  obtain ⟨hyce, -⟩ := checkedDiv_some (liftOpt_ok hyc)
  obtain ⟨hn1e, hn1le⟩ := checkedMul_some (liftOpt_ok hn1)
  obtain ⟨hn2e, hn2le⟩ := checkedAdd_some (liftOpt_ok hn2)
  obtain ⟨hnce, -⟩ := checkedDiv_some (liftOpt_ok hnc)
  have htfe := computeTakerFee_ok htf
  obtain ⟨hmce, htce⟩ := computeCosts_ok hmtc
  obtain ⟨hmu2, hmusum, -⟩ := collectDeposit_ok hmu
  obtain ⟨htu2, htusum, -⟩ := collectDeposit_ok htu
  obtain ⟨hvf1, hvf2, -⟩ := transferIfPositive_ok hvf
  obtain ⟨hmonone, hmosome⟩ := updateStoredOrder_ok hmo1
  obtain ⟨htonone, htosome⟩ := updateStoredOrder_ok hto1
  refine ⟨trivial, trivial, trivial, ?_, ?_, trivial, ?_, ?_, ?_, trivial, trivial, ?_, ?_, ?_,
    (guardE_ok hg9).1, (guardE_ok hg9).2, (guardE_ok hg10).1, (guardE_ok hg10).2,
    (guardE_ok hg13).1, (guardE_ok hg13).2, ?_, ?_⟩
  · omega
  · omega
  · simp only [decide_eq_true_eq]
    rw [htfe]
  · simp only [decide_eq_true_eq]
    rw [hmce]
  · simp only [decide_eq_true_eq]
    rw [htce]
  · omega
  · omega
  · omega
  · intro o ho
    exact ⟨(hmord o ho).2.2, (hmosome o ho).1, (hmosome o ho).2⟩
  · intro o ho
    exact ⟨(htord o ho).2.2, (htosome o ho).1, (htosome o ho).2⟩

theorem placeOrder_ok {gs : GlobalState} {mkt : Market} {mk : Nat} {now : Int}
    {u ub : Nat} {args : PlaceOrderArgs} {o : Order} {l : Nat}
    (h : placeOrder gs mkt mk now u ub args = .ok (o, l)) :
    o = { owner := u
          market := mk
          side := args.side
          outcome := args.outcome
          orderType := args.orderType
          price := args.price
          size := args.size
          filledSize := 0
          status := OrderStatus.Open
          clientOrderId := args.clientOrderId
          expiryTs := args.expiryTs
          createdAt := now
          lockedAmount := l } ∧
    l = ((if args.side = Side.Bid then args.price
          else USDC_MULTIPLIER - args.price) * args.size +
         (SHARE_MULTIPLIER - 1)) / SHARE_MULTIPLIER ∧
    MIN_PRICE ≤ args.price ∧ args.price ≤ MAX_PRICE ∧ args.price % 10000 = 0 ∧
    MIN_ORDER_SIZE ≤ args.size ∧ args.size ≤ MAX_ORDER_SIZE ∧
    l ≤ ub ∧ mkt.isTradingOpen now ∧ gs.paused = false := by
  unfold placeOrder at h
  obtain ⟨_, h1, h⟩ := bindOk h
  obtain ⟨_, h2, h⟩ := bindOk h
  obtain ⟨_, h3, h⟩ := bindOk h
  obtain ⟨_, h4, h⟩ := bindOk h
  obtain ⟨_, h5, h⟩ := bindOk h
  by_cases hlim : args.orderType = OrderType.Limit
  · rw [if_pos hlim] at h
    obtain ⟨_, hexp, h⟩ := bindOk h
    obtain ⟨p1, hp1, h⟩ := bindOk h
    obtain ⟨p2, hp2, h⟩ := bindOk h
    obtain ⟨lk, hlk, h⟩ := bindOk h
    obtain ⟨_, h6, h⟩ := bindOk h
    replace h := pureOk h
    injection h with ho hl
    subst ho
    subst hl
    obtain ⟨hp1e, -⟩ := checkedMul_some (liftOpt_ok hp1)
    obtain ⟨hp2e, -⟩ := checkedAdd_some (liftOpt_ok hp2)
    obtain ⟨hlke, -⟩ := checkedDiv_some (liftOpt_ok hlk)
    simp only [USDC_MULTIPLIER, SHARE_MULTIPLIER, MIN_PRICE, MAX_PRICE,
      MIN_ORDER_SIZE, MAX_ORDER_SIZE] at hp1e hp2e hlke h3 h5 ⊢
    refine ⟨trivial, by omega, (guardE_ok h3).1, (guardE_ok h3).2, guardE_ok h4,
      (guardE_ok h5).1, (guardE_ok h5).2, guardE_ok h6, guardE_ok h1, ?_⟩
    have := guardE_ok h2
    simpa using this
  · rw [if_neg hlim] at h
    obtain ⟨_, hpure, h⟩ := bindOk h
    obtain ⟨p1, hp1, h⟩ := bindOk h
    obtain ⟨p2, hp2, h⟩ := bindOk h
    obtain ⟨lk, hlk, h⟩ := bindOk h
    obtain ⟨_, h6, h⟩ := bindOk h
    replace h := pureOk h
    injection h with ho hl
    subst ho
    subst hl
    obtain ⟨hp1e, -⟩ := checkedMul_some (liftOpt_ok hp1)
    obtain ⟨hp2e, -⟩ := checkedAdd_some (liftOpt_ok hp2)
    obtain ⟨hlke, -⟩ := checkedDiv_some (liftOpt_ok hlk)
    simp only [USDC_MULTIPLIER, SHARE_MULTIPLIER, MIN_PRICE, MAX_PRICE,
      MIN_ORDER_SIZE, MAX_ORDER_SIZE] at hp1e hp2e hlke h3 h5 ⊢
    refine ⟨trivial, by omega, (guardE_ok h3).1, (guardE_ok h3).2, guardE_ok h4,
      (guardE_ok h5).1, (guardE_ok h5).2, guardE_ok h6, guardE_ok h1, ?_⟩
    have := guardE_ok h2
    simpa using this

theorem checkedDiv_pos {a b : Nat} (hb : b > 0) : checkedDiv a b = some (a / b) := by
  unfold checkedDiv
  rw [if_neg (by omega)]

theorem executeClose_ok {ctx : CloseCtx} {args : CloseTradeArgs} {r : CloseResult}
    (h : executeClose ctx args = .ok r) :
    args.size ≤ ctx.sellerPosition.sharesOf args.outcome ∧
    MIN_PRICE ≤ args.price ∧ args.price ≤ MAX_PRICE ∧
    MIN_ORDER_SIZE ≤ args.size ∧ args.size ≤ MAX_ORDER_SIZE ∧
    r.transferAmount =
      (args.price * args.size + (SHARE_MULTIPLIER - 1)) / SHARE_MULTIPLIER ∧
    r.fee = r.transferAmount * ctx.gs.takerFeeBps / 10000 ∧
    r.realizedPnl = (r.transferAmount : Int) -
      ((ctx.sellerPosition.costBasisOf args.outcome /
        ctx.sellerPosition.sharesOf args.outcome * args.size /
        SHARE_MULTIPLIER : Nat) : Int) ∧
    r.sellerPosition.sharesOf args.outcome =
      ctx.sellerPosition.sharesOf args.outcome - args.size ∧
    r.sellerPosition.costBasisOf args.outcome =
      ctx.sellerPosition.costBasisOf args.outcome -
      ctx.sellerPosition.costBasisOf args.outcome * args.size /
        ctx.sellerPosition.sharesOf args.outcome ∧
    (I64_MIN ≤ ctx.sellerPosition.realizedPnl + r.realizedPnl ∧
     ctx.sellerPosition.realizedPnl + r.realizedPnl ≤ I64_MAX →
     r.sellerPosition.realizedPnl =
       ctx.sellerPosition.realizedPnl + r.realizedPnl) := by
  unfold executeClose at h
  cases hoc : args.outcome
  all_goals (
    rw [hoc] at h
    simp only [hoc, UserPosition.sharesOf, UserPosition.costBasisOf]
    obtain ⟨_, hb, h⟩ := bindOk h
    obtain ⟨_, hs, h⟩ := bindOk h
    obtain ⟨_, hp, h⟩ := bindOk h
    obtain ⟨_, hst, h⟩ := bindOk h
    obtain ⟨_, htr, h⟩ := bindOk h
    obtain ⟨_, hself, h⟩ := bindOk h
    obtain ⟨_, hpr, h⟩ := bindOk h
    obtain ⟨_, hsz, h⟩ := bindOk h
    obtain ⟨_, hshares, h⟩ := bindOk h
    obtain ⟨bns, hbns, h⟩ := bindOk h
    obtain ⟨_, hcap, h⟩ := bindOk h
    obtain ⟨t1, ht1, h⟩ := bindOk h
    obtain ⟨t2, ht2, h⟩ := bindOk h
    obtain ⟨tA, htA, h⟩ := bindOk h
    obtain ⟨f1, hf1, h⟩ := bindOk h
    obtain ⟨fee, hfee, h⟩ := bindOk h
    obtain ⟨bs, hbs, h⟩ := bindOk h
    obtain ⟨bf, hbf, h⟩ := bindOk h
    obtain ⟨c1, hc1, h⟩ := bindOk h
    obtain ⟨cbs, hcbs, h⟩ := bindOk h
    obtain ⟨ys, hys, h⟩ := bindOk h
    obtain ⟨cr1, hcr1, h⟩ := bindOk h
    obtain ⟨cred, hcred, h⟩ := bindOk h
    obtain ⟨sp1, hsp1, h⟩ := bindOk h
    replace hsp1 := pureOk hsp1
    cases hsp1
    obtain ⟨btc, hbtc, h⟩ := bindOk h
    obtain ⟨bs2, hbs2, h⟩ := bindOk h
    obtain ⟨bc2, hbc2, h⟩ := bindOk h
    obtain ⟨bp1, hbp1, h⟩ := bindOk h
    replace hbp1 := pureOk hbp1
    cases hbp1
    obtain ⟨tv, htv, h⟩ := bindOk h
    obtain ⟨tt, htt, h⟩ := bindOk h
    replace h := pureOk h
    cases h
    dsimp only at *
    obtain ⟨hg1, hg2⟩ := guardE_ok hpr
    obtain ⟨hg3, hg4⟩ := guardE_ok hsz
    have hsh := guardE_ok hshares
    obtain ⟨ht1e, ht1le⟩ := checkedMul_some (liftOpt_ok ht1)
    obtain ⟨ht2e, -⟩ := checkedAdd_some (liftOpt_ok ht2)
    obtain ⟨htAe, -⟩ := checkedDiv_some (liftOpt_ok htA)
    obtain ⟨hf1e, -⟩ := checkedMul_some (liftOpt_ok hf1)
    obtain ⟨hfeee, -⟩ := checkedDiv_some (liftOpt_ok hfee)
    obtain ⟨hyse, -⟩ := checkedSub_some (liftOpt_ok hys)
    obtain ⟨-, ht2le⟩ := checkedAdd_some (liftOpt_ok ht2)
    obtain ⟨hcr1e, -⟩ := checkedMul_some (liftOpt_ok hcr1)
    obtain ⟨hcrede, -⟩ := checkedDiv_some (liftOpt_ok hcred)
    simp only [USDC_MULTIPLIER, SHARE_MULTIPLIER, MIN_PRICE, MAX_PRICE,
      MIN_ORDER_SIZE, MAX_ORDER_SIZE, U64_MAX] at ht1e ht1le ht2e ht2le htAe hf1e
    simp only [USDC_MULTIPLIER, SHARE_MULTIPLIER, MIN_PRICE, MAX_PRICE,
      MIN_ORDER_SIZE, MAX_ORDER_SIZE, U64_MAX] at hfeee hyse hcr1e hcrede hg1 hg2 hg3 hg4 ⊢
    have hpos := Nat.lt_of_lt_of_le (show 0 < args.size by omega) hsh
    rw [if_pos hpos, checkedDiv_pos hpos, Option.getD_some] at hc1
    obtain ⟨hc1e, hc1le⟩ := checkedMul_some (liftOpt_ok hc1)
    obtain ⟨hcbse, -⟩ := checkedDiv_some (liftOpt_ok hcbs)
    simp only [USDC_MULTIPLIER, SHARE_MULTIPLIER, U64_MAX] at hc1e hc1le hcbse
    have ht2le2 : t2 ≤ 18446744073709551615 := by omega
    have htA63 : tA < 9223372036854775808 := by omega
    have hcbs63 : cbs < 9223372036854775808 := by omega
    have hsubrange : I64_MIN ≤ (tA : Int) - (cbs : Int) ∧
        (tA : Int) - (cbs : Int) ≤ I64_MAX := by
      unfold I64_MIN I64_MAX
      constructor <;> omega
    have hpnl : (i64CheckedSub (u64ToI64 tA) (u64ToI64 cbs)).getD 0 =
        (tA : Int) - (cbs : Int) := by
      unfold u64ToI64
      rw [if_pos htA63, if_pos hcbs63]
      unfold i64CheckedSub
      rw [if_pos hsubrange]
      simp
    rw [hcr1e] at hcrede
    rw [hc1e] at hcbse
    refine ⟨hsh, hg1, hg2, hg3, hg4, by omega, by omega, ?_, by omega, by omega, ?_⟩
    · rw [hpnl]; omega
    · intro hbnd
      rw [hpnl] at hbnd ⊢
      unfold i64CheckedAdd
      rw [if_pos hbnd]
      simp)

theorem cancelOrder_ok {market : Market} {mk vault uu : Nat} {order : Order}
    {signer : Nat} {res : Nat × Nat × Nat}
    (h : cancelOrder market mk vault uu order signer = .ok res) :
    res.1 = cancelRefund order ∧ order.isActive ∧ order.owner = signer ∧
    res.2.1 + res.1 = vault ∧ res.2.2 = uu + res.1 := by
  unfold cancelOrder at h
  obtain ⟨_, h1, h⟩ := bindOk h
  obtain ⟨_, h2, h⟩ := bindOk h
  obtain ⟨_, h3, h⟩ := bindOk h
  obtain ⟨vu, hvu, h⟩ := bindOk h
  replace h := pureOk h
  cases h
  obtain ⟨ha, hb, -⟩ := transferIfPositive_ok hvu
  exact ⟨rfl, guardE_ok h3, guardE_ok h2, ha, hb⟩

theorem cancelOrderByRelayer_ok {market : Market} {mk vault uu : Nat}
    {order : Order} {signer : Nat} {now : Int} {res : Nat × Nat × Nat}
    (h : cancelOrderByRelayer market mk vault uu order signer now = .ok res) :
    res.1 = cancelRefund order ∧ order.isActive ∧ signer = market.authority ∧
    now ≥ market.expiryAt - TRADING_CLOSE_BUFFER ∧
    res.2.1 + res.1 = vault ∧ res.2.2 = uu + res.1 := by
  unfold cancelOrderByRelayer at h
  obtain ⟨_, h1, h⟩ := bindOk h
  obtain ⟨_, h2, h⟩ := bindOk h
  obtain ⟨_, h3, h⟩ := bindOk h
  obtain ⟨_, h4, h⟩ := bindOk h
  obtain ⟨vu, hvu, h⟩ := bindOk h
  replace h := pureOk h
  cases h
  obtain ⟨ha, hb, -⟩ := transferIfPositive_ok hvu
  exact ⟨rfl, guardE_ok h2, guardE_ok h3, guardE_ok h4, ha, hb⟩

theorem settlePositions_ok {market : Market} {mk vault uu : Nat}
    {p : UserPosition} {now : Int} {res : Market × Nat × Nat × Nat}
    (h : settlePositions market mk vault uu (some p) now = .ok res) :
    market.status = MarketStatus.Resolved ∧
    ¬ market.outcome = MarketOutcome.Pending ∧
    p.settled = false ∧
    res.2.2.2 = (match market.outcome with
      | MarketOutcome.Yes => p.yesShares
      | MarketOutcome.No => p.noShares
      | MarketOutcome.Pending => 0) ∧
    res.2.2.1 = uu + res.2.2.2 ∧
    res.2.1 + res.2.2.2 = vault := by
  unfold settlePositions at h
  obtain ⟨pos, hpos, h⟩ := bindOk h
  replace hpos := liftOpt_ok hpos
  injection hpos with hpos
  subst hpos
  obtain ⟨_, h1, h⟩ := bindOk h
  obtain ⟨_, h2, h⟩ := bindOk h
  obtain ⟨_, h3, h⟩ := bindOk h
  obtain ⟨_, h4, h⟩ := bindOk h
  have hres := guardE_ok h2
  have hout := guardE_ok h3
  have hset := guardE_ok h4
  rcases hoc : market.outcome with _ | _ | _
  · exact absurd hoc hout
  all_goals (
    rw [hoc] at h
    obtain ⟨payout, hpay, h⟩ := bindOk h
    replace hpay := pureOk hpay
    subst hpay
    obtain ⟨vu, hvu, h⟩ := bindOk h
    replace h := pureOk h
    cases h
    dsimp only
    simp only [hoc]
    unfold vaultPayout at hvu
    split at hvu <;> rename_i hc
    · obtain ⟨_, hg, hvu⟩ := bindOk hvu
      have hge := guardE_ok hg
      replace hvu := pureOk hvu
      cases hvu
      exact ⟨hres, by simp, by simpa using hset, trivial, rfl, by omega⟩
    · replace hvu := pureOk hvu
      cases hvu
      exact ⟨hres, by simp, by simpa using hset, trivial, by omega, by omega⟩)

theorem settlePositions_none {market : Market} {mk vault uu : Nat} {now : Int} :
    settlePositions market mk vault uu none now =
      .error DegenError.AccountNotInitialized := by
  rfl

-- ============================================================================
-- Concrete example states used by witnesses and counterexamples
-- ============================================================================

def exGlobal : GlobalState :=
  { admin := 9, feeRecipient := 8, makerFeeBps := 0, takerFeeBps := 10,
    paused := false }

def exMarket : Market where
  id := 1
  authority := 5
  asset := "BTC"
  timeframe := "5m"
  strikePrice := 100
  finalPrice := 0
  createdAt := 0
  expiryAt := 1000
  resolvedAt := 0
  settledAt := 0
  status := .Open
  outcome := .Pending
  totalVolume := 0
  totalTrades := 0
  totalPositions := 0
  settledPositions := 0
  openInterest := 0

/--
C9: `resolve_market` never compares the caller against the market
authority: under the stated preconditions it succeeds for every signer, and
its result never depends on the signer.
-/
theorem C9_resolve_caller_independent (market : Market) (now : Int)
    (outcome finalPrice : Nat)
    (h1 : now ≥ market.expiryAt)
    (h2 : market.status = MarketStatus.Open ∨ market.status = MarketStatus.Closed)
    (h3 : outcome ≤ 1) (h4 : finalPrice > 0) :
    (∀ caller, (resolveMarket market now outcome finalPrice caller).isOk = true) ∧
    (∀ c1 c2, resolveMarket market now outcome finalPrice c1 =
              resolveMarket market now outcome finalPrice c2) := by
  constructor
  · intro caller
    unfold resolveMarket
    rw [guardE_passes h1, guardE_passes h2, guardE_passes h3, guardE_passes h4]
    rfl
  · intro c1 c2
    rfl

/-- Witness for C9 at a concrete expired market and two distinct callers. -/
theorem C9_witness :
    (1000 : Int) ≥ exMarket.expiryAt ∧
    (resolveMarket exMarket 1000 0 5 42).isOk = true ∧
    resolveMarket exMarket 1000 0 5 42 = resolveMarket exMarket 1000 0 5 77 :=
  ⟨by decide,
   (C9_resolve_caller_independent exMarket 1000 0 5 (by decide) (Or.inl rfl)
     (by decide) (by decide)).1 42,
   (C9_resolve_caller_independent exMarket 1000 0 5 (by decide) (Or.inl rfl)
     (by decide) (by decide)).2 42 77⟩

/--
C10 counterexample: the claim says market creation succeeds whenever
`expiry ≥ now + 60`, but the source requires `expiry_ts > now + 60`
strictly: at `now = 0`, `expiry = 60` satisfies `expiry ≥ now + 60` yet
`initialize_market` fails with `InvalidExpiry`.
-/
theorem C10_counterexample :
    initializeMarket "BTC" "5m" 100 60 0 5 1 = .error DegenError.InvalidExpiry ∧
    (60 : Int) ≥ 0 + 60 :=
  ⟨rfl, by decide⟩

/--
C10 (amended): for every allow-listed asset and timeframe, market creation
succeeds iff `expiry > now + 60` (it fails `InvalidExpiry` when
`expiry ≤ now + 60`); on success the created market's status is `Pending`
iff the supplied strike price is 0 and `Open` iff it is positive.
-/
theorem C10_market_creation (asset timeframe : String) (strike : Nat)
    (expiry now : Int) (auth mid : Nat)
    (ha : asset = "BTC" ∨ asset = "ETH" ∨ asset = "SOL")
    (ht : timeframe = "5m" ∨ timeframe = "15m" ∨ timeframe = "1h" ∨
          timeframe = "4h" ∨ timeframe = "24h") :
    (expiry > now + 60 →
      (initializeMarket asset timeframe strike expiry now auth mid).isOk = true) ∧
    (expiry ≤ now + 60 →
      initializeMarket asset timeframe strike expiry now auth mid =
        .error DegenError.InvalidExpiry) ∧
    (∀ m, initializeMarket asset timeframe strike expiry now auth mid = .ok m →
      (m.status = MarketStatus.Pending ↔ strike = 0) ∧
      (m.status = MarketStatus.Open ↔ 0 < strike)) := by
  have hal : asset.length ≤ MAX_ASSET_LEN := by
    rcases ha with rfl | rfl | rfl <;> decide
  have htl : timeframe.length ≤ MAX_TIMEFRAME_LEN := by
    rcases ht with rfl | rfl | rfl | rfl | rfl <;> decide
  refine ⟨?_, ?_, ?_⟩
  · intro hexp
    unfold initializeMarket
    rw [guardE_passes hal, guardE_passes htl, guardE_passes hexp,
      guardE_passes ha, guardE_passes ht]
    rfl
  · intro hexp
    unfold initializeMarket
    rw [guardE_passes hal, guardE_passes htl]
    have : ¬ (expiry > now + 60) := by omega
    unfold guardE
    rw [if_neg this]
    rfl
  · intro m hm
    unfold initializeMarket at hm
    obtain ⟨_, g1, hm⟩ := bindOk hm
    obtain ⟨_, g2, hm⟩ := bindOk hm
    obtain ⟨_, g3, hm⟩ := bindOk hm
    obtain ⟨_, g4, hm⟩ := bindOk hm
    obtain ⟨_, g5, hm⟩ := bindOk hm
    replace hm := pureOk hm
    cases hm
    by_cases hs : 0 < strike
    · rw [if_pos hs]
      constructor
      · constructor
        · intro hcon
          cases hcon
        · intro h0
          omega
      · simp [hs]
    · rw [if_neg hs]
      constructor
      · simp
        omega
      · constructor
        · intro hcon
          cases hcon
        · intro h0
          omega

/-- Witness for C10 (amended) at asset BTC, timeframe 5m, strike 100,
expiry 61, now 0. -/
theorem C10_witness :
    (61 : Int) > 0 + 60 ∧
    (initializeMarket "BTC" "5m" 100 61 0 5 1).isOk = true ∧
    initializeMarket "BTC" "5m" 100 60 0 5 1 = .error DegenError.InvalidExpiry :=
  ⟨by decide,
   (C10_market_creation "BTC" "5m" 100 61 0 5 1 (Or.inl rfl) (Or.inl rfl)).1
     (by decide),
   (C10_market_creation "BTC" "5m" 100 60 0 5 1 (Or.inl rfl) (Or.inl rfl)).2.1
     (by decide)⟩

def exOrderC3 : Order where
  owner := 1
  market := 7
  side := .Bid
  outcome := .Yes
  orderType := .Limit
  price := 990000
  size := 100000000000
  filledSize := 1000
  status := .PartialFill
  clientOrderId := 3
  expiryTs := 500
  createdAt := 0
  lockedAmount := 99000000000

/--
C3: the claim (and the function's own documentation) says a partially
filled order's cancellation refunds
`floor(locked_amount × (size − filled_size) / size)`; but the source
computes `locked_amount.checked_mul(remaining).unwrap_or(0)`, so when the
64-bit product overflows the user is silently refunded 0 instead of the
≈99_000 USDC the formula gives.  Failing input: a maximum-size order
(`size = 100_000_000_000`, `price = 990_000`,
`locked_amount = 99_000_000_000`) partially filled by the minimum match
(`filled_size = 1000`), cancelled by its owner or force-cancelled by the
relayer.
-/
theorem C3_refund_overflow_bug :
    cancelOrder exMarket 7 100000000000 0 exOrderC3 1 =
      .ok (0, 100000000000, 0) ∧
    cancelOrderByRelayer exMarket 7 100000000000 0 exOrderC3 5 980 =
      .ok (0, 100000000000, 0) ∧
    exOrderC3.lockedAmount * (exOrderC3.size - exOrderC3.filledSize) /
      exOrderC3.size = 98999999010 ∧
    exOrderC3.lockedAmount * (exOrderC3.size - exOrderC3.filledSize) >
      U64_MAX ∧
    (0 : Nat) ≠ 98999999010 :=
  ⟨rfl, rfl, by decide, by decide, by decide⟩

def exMarketResolved : Market := { exMarket with status := .Resolved, outcome := .Yes }

def exPosSettle : UserPosition :=
  { owner := 3, market := 7, yesShares := 25000000, noShares := 0,
    yesCostBasis := 0, noCostBasis := 0, realizedPnl := 0,
    settled := false, payout := 0 }

/--
C5 counterexample: after a successful settlement the position account is
closed (`close = authority`), so the second settle attempt on the same
position fails Anchor's account validation (the account no longer exists),
not with `PositionAlreadySettled` as the claim states.  (The handler's
`position.settled` flag is never set to `true` by any instruction, so
`PositionAlreadySettled` is unreachable after a successful settle.)
-/
theorem C5_counterexample :
    (settlePositions exMarketResolved 7 100000000 0 (some exPosSettle) 2000).isOk
      = true ∧
    settlePositions exMarketResolved 7 100000000 0 none 2000 =
      .error DegenError.AccountNotInitialized ∧
    DegenError.AccountNotInitialized ≠ DegenError.PositionAlreadySettled :=
  ⟨rfl, rfl, by decide⟩

/--
C5 (amended): settlement is legal only on a Resolved market with a
non-Pending outcome and pays out exactly the winning-outcome share count
(yes_shares for Yes, no_shares for No), with no multiplication; a position
can be settled at most once — settlement deallocates the position account,
so a second attempt fails account validation (`AccountNotInitialized`
rather than `PositionAlreadySettled`).
-/
theorem C5_settlement_payout {market : Market} {mk vault uu : Nat}
    {p : UserPosition} {now : Int} {res : Market × Nat × Nat × Nat}
    (h : settlePositions market mk vault uu (some p) now = .ok res) :
    market.status = MarketStatus.Resolved ∧
    market.outcome ≠ MarketOutcome.Pending ∧
    res.2.2.2 = (match market.outcome with
      | MarketOutcome.Yes => p.yesShares
      | MarketOutcome.No => p.noShares
      | MarketOutcome.Pending => 0) ∧
    res.2.2.1 = uu + res.2.2.2 ∧
    ∀ (m2 : Market) (mk2 v2 u2 : Nat) (now2 : Int),
      settlePositions m2 mk2 v2 u2 none now2 =
        .error DegenError.AccountNotInitialized := by
  obtain ⟨h1, h2, h3, h4, h5, h6⟩ := settlePositions_ok h
  exact ⟨h1, h2, h4, h5, fun _ _ _ _ _ => settlePositions_none⟩

def exSettleRes : Market × Nat × Nat × Nat :=
  (settlePositions exMarketResolved 7 100000000 0 (some exPosSettle) 2000).toOption.get
    (by decide)

/-- Witness for C5 (amended): settling a 25-contract YES position on a
Yes-resolved market pays out exactly 25_000_000. -/
theorem C5_witness :
    settlePositions exMarketResolved 7 100000000 0 (some exPosSettle) 2000 =
      .ok exSettleRes ∧
    exSettleRes.2.2.2 = 25000000 ∧
    exMarketResolved.status = MarketStatus.Resolved ∧
    exSettleRes.2.2.2 = (match exMarketResolved.outcome with
      | MarketOutcome.Yes => exPosSettle.yesShares
      | MarketOutcome.No => exPosSettle.noShares
      | MarketOutcome.Pending => 0) :=
  ⟨rfl, rfl, rfl, (C5_settlement_payout (show settlePositions exMarketResolved 7 100000000 0
     (some exPosSettle) 2000 = Except.ok exSettleRes from rfl)).2.2.1⟩

/--
C6: the collateral locked by `place_order` is
`ceil(price × size / 1_000_000)` for a Bid and
`ceil((1_000_000 − price) × size / 1_000_000)` for an Ask (stated by the
defining bounds of the ceiling), and is recorded in the order's
`locked_amount`.
-/
theorem C6_locked_collateral {gs : GlobalState} {mkt : Market} {mk : Nat}
    {now : Int} {u ub : Nat} {args : PlaceOrderArgs} {o : Order} {l : Nat}
    (h : placeOrder gs mkt mk now u ub args = .ok (o, l)) :
    o.lockedAmount = l ∧
    (args.side = Side.Bid →
      args.price * args.size ≤ l * USDC_MULTIPLIER ∧
      l * USDC_MULTIPLIER < args.price * args.size + USDC_MULTIPLIER) ∧
    (args.side = Side.Ask →
      (USDC_MULTIPLIER - args.price) * args.size ≤ l * USDC_MULTIPLIER ∧
      l * USDC_MULTIPLIER <
        (USDC_MULTIPLIER - args.price) * args.size + USDC_MULTIPLIER) := by
  obtain ⟨ho, hl, -⟩ := placeOrder_ok h
  subst ho
  refine ⟨rfl, ?_, ?_⟩
  · intro hside
    rw [if_pos hside] at hl
    simp only [USDC_MULTIPLIER, SHARE_MULTIPLIER] at hl ⊢
    omega
  · intro hside
    rw [if_neg (by rw [hside]; intro hcon; cases hcon)] at hl
    simp only [USDC_MULTIPLIER, SHARE_MULTIPLIER] at hl ⊢
    omega

def exPlaceA : Order × Nat :=
  (placeOrder exGlobal exMarket 7 0 1 1000000000
    ⟨Side.Bid, Outcome.Yes, OrderType.Limit, 500000, 100000000, 500, 1⟩).toOption.get
    (by decide)

/-- Witness for C6: Scenario A — a Bid at price 500_000 and size
100_000_000 locks exactly 50_000_000. -/
theorem C6_witness :
    placeOrder exGlobal exMarket 7 0 1 1000000000
      ⟨Side.Bid, Outcome.Yes, OrderType.Limit, 500000, 100000000, 500, 1⟩ =
      .ok (exPlaceA.1, 50000000) ∧
    500000 * 100000000 ≤ 50000000 * USDC_MULTIPLIER ∧
    50000000 * USDC_MULTIPLIER < 500000 * 100000000 + USDC_MULTIPLIER :=
  ⟨rfl,
   ((C6_locked_collateral (show placeOrder exGlobal exMarket 7 0 1 1000000000
      ⟨Side.Bid, Outcome.Yes, OrderType.Limit, 500000, 100000000, 500, 1⟩ =
      Except.ok (exPlaceA.1, 50000000) from rfl)).2.1 rfl).1,
   ((C6_locked_collateral (show placeOrder exGlobal exMarket 7 0 1 1000000000
      ⟨Side.Bid, Outcome.Yes, OrderType.Limit, 500000, 100000000, 500, 1⟩ =
      Except.ok (exPlaceA.1, 50000000) from rfl)).2.1 rfl).2⟩

def exCtx2 : MatchCtx where
  gs := exGlobal
  market := exMarket
  marketKey := 7
  vault := 0
  feeRecipient := 0
  maker := 1
  taker := 2
  makerUsdc := 1000000000
  takerUsdc := 1000000000
  makerOrder := none
  takerOrder := none
  makerPosition := UserPosition.fresh
  takerPosition := UserPosition.fresh
  now := 0

def exMa2 : PlaceOrderArgs := ⟨.Bid, .Yes, .Limit, 600000, 10000000, 500, 1⟩
def exTa2 : PlaceOrderArgs := ⟨.Ask, .Yes, .Limit, 600000, 10000000, 500, 2⟩

def exMatchRes2 : MatchResult :=
  (executeMatch exCtx2 exMa2 exTa2 10000000).toOption.get (by decide)

/--
C2: in every successful opening trade, with execution price `r.price`
(the maker's price) and outcome `r.outcome`: `yes_price` is the execution
price for Yes and `1_000_000 − price` for No, `no_price` its complement;
`yes_cost`/`no_cost` are the ceilings of `price × size / 1_000_000`
(stated by the defining bounds of the ceiling); the taker fee is the floor
of `taker-leg-cost × taker_fee_bps / 10_000`; and the fee is charged only
to the taker: the maker's required payment is exactly the maker's leg,
the taker's is the taker's leg plus the fee.
-/
theorem C2_opening_trade_pricing {ctx : MatchCtx} {ma ta : PlaceOrderArgs}
    {ms : Nat} {r : MatchResult} (h : executeMatch ctx ma ta ms = .ok r) :
    ((if r.outcome = Outcome.Yes then r.price else USDC_MULTIPLIER - r.price) *
        r.size ≤ r.yesCost * USDC_MULTIPLIER ∧
      r.yesCost * USDC_MULTIPLIER <
        (if r.outcome = Outcome.Yes then r.price
         else USDC_MULTIPLIER - r.price) * r.size + USDC_MULTIPLIER) ∧
    ((USDC_MULTIPLIER -
        (if r.outcome = Outcome.Yes then r.price
         else USDC_MULTIPLIER - r.price)) * r.size ≤
        r.noCost * USDC_MULTIPLIER ∧
      r.noCost * USDC_MULTIPLIER <
        (USDC_MULTIPLIER -
         (if r.outcome = Outcome.Yes then r.price
          else USDC_MULTIPLIER - r.price)) * r.size + USDC_MULTIPLIER) ∧
    (r.takerFee * 10000 ≤
        (if r.isMakerYesBuyer = true then r.noCost else r.yesCost) *
          ctx.gs.takerFeeBps ∧
      (if r.isMakerYesBuyer = true then r.noCost else r.yesCost) *
          ctx.gs.takerFeeBps < (r.takerFee + 1) * 10000) ∧
    r.makerCost = (if r.isMakerYesBuyer = true then r.yesCost else r.noCost) ∧
    r.takerCost = (if r.isMakerYesBuyer = true then r.noCost else r.yesCost) +
      r.takerFee := by
  obtain ⟨-, -, hsz, hyc, hnc, -, htf, hmc, htc, -⟩ := executeMatch_ok h
  rw [hsz]
  simp only [USDC_MULTIPLIER, SHARE_MULTIPLIER] at hyc hnc ⊢
  refine ⟨⟨by omega, by omega⟩, ⟨by omega, by omega⟩, ⟨by omega, by omega⟩,
    hmc, htc⟩

/-- Witness for C2: Scenario B — maker Bid YES at 600_000 matched with
taker Ask YES at 600_000 for 10_000_000 units under a 10 bps taker fee
gives `yes_cost = 6_000_000`, `no_cost = 4_000_000`,
`taker_fee = 4_000`, charged only to the taker. -/
theorem C2_witness :
    executeMatch exCtx2 exMa2 exTa2 10000000 = .ok exMatchRes2 ∧
    exMatchRes2.yesCost = 6000000 ∧ exMatchRes2.noCost = 4000000 ∧
    exMatchRes2.takerFee = 4000 ∧ exMatchRes2.makerCost = 6000000 ∧
    exMatchRes2.takerCost = 4004000 ∧
    exMatchRes2.makerCost =
      (if exMatchRes2.isMakerYesBuyer = true then exMatchRes2.yesCost
       else exMatchRes2.noCost) ∧
    exMatchRes2.takerCost =
      (if exMatchRes2.isMakerYesBuyer = true then exMatchRes2.noCost
       else exMatchRes2.yesCost) + exMatchRes2.takerFee :=
  ⟨rfl, rfl, rfl, rfl, rfl, rfl,
   (C2_opening_trade_pricing (show executeMatch exCtx2 exMa2 exTa2 10000000 =
     Except.ok exMatchRes2 from rfl)).2.2.2.1,
   (C2_opening_trade_pricing (show executeMatch exCtx2 exMa2 exTa2 10000000 =
     Except.ok exMatchRes2 from rfl)).2.2.2.2⟩

/--
C7 counterexample: the claim `yes_cost + no_cost ≥ sum of required
payments − already-escrowed amounts` fails whenever the taker fee is
positive and neither side has a stored (escrowed) order: in Scenario B the
required payments sum to 10_004_000 with nothing escrowed, while
`yes_cost + no_cost = 10_000_000`.
-/
theorem C7_counterexample :
    (executeMatch exCtx2 exMa2 exTa2 10000000).map
      (fun r => (r.yesCost + r.noCost, r.makerCost + r.takerCost)) =
      .ok (10000000, 10004000) ∧
    exCtx2.makerOrder = none ∧ exCtx2.takerOrder = none ∧
    ¬ (10000000 : Nat) ≥ 10004000 - 0 :=
  ⟨rfl, rfl, rfl, by decide⟩

/--
C7 (amended): for every successful opening trade the sum of both
counterparties' required payments equals `yes_cost + no_cost + taker_fee`
(so `yes_cost + no_cost + taker_fee` — not `yes_cost + no_cost` — is at
least that sum minus the escrow-covered payments), and the vault balance
after the trade equals the balance before plus the net inflow from
non-escrowed counterparties minus the fee paid to the fee recipient, with
zero leakage: the total of both wallets, the vault and the fee recipient
is conserved.
-/
theorem C7_vault_accounting {ctx : MatchCtx} {ma ta : PlaceOrderArgs}
    {ms : Nat} {r : MatchResult} (h : executeMatch ctx ma ta ms = .ok r) :
    r.makerCost + r.takerCost = r.yesCost + r.noCost + r.takerFee ∧
    r.yesCost + r.noCost + r.takerFee ≥
      (r.makerCost + r.takerCost) -
      ((if ctx.makerOrder.isSome = true then r.makerCost else 0) +
       (if ctx.takerOrder.isSome = true then r.takerCost else 0)) ∧
    r.vault + r.takerFee =
      ctx.vault + (if ctx.makerOrder.isSome = true then 0 else r.makerCost) +
      (if ctx.takerOrder.isSome = true then 0 else r.takerCost) ∧
    r.feeRecipient = ctx.feeRecipient + r.takerFee ∧
    r.makerUsdc + r.takerUsdc + r.vault + r.feeRecipient =
      ctx.makerUsdc + ctx.takerUsdc + ctx.vault + ctx.feeRecipient := by
  obtain ⟨-, -, -, -, -, -, -, hmc, htc, -, -, hv, hf, hcons, -⟩ :=
    executeMatch_ok h
  have hsum : r.makerCost + r.takerCost = r.yesCost + r.noCost + r.takerFee := by
    cases hib : r.isMakerYesBuyer <;> simp only [hib] at hmc htc <;> simp at hmc htc <;> omega
  exact ⟨hsum, by omega, hv, hf, hcons⟩

/-- Witness for C7 (amended) at Scenario B: required payments
6_000_000 + 4_004_000 equal 6_000_000 + 4_000_000 + 4_000; the vault ends
at 10_000_000 = 0 + 6_000_000 + 4_004_000 − 4_000 and the fee recipient
receives exactly the 4_000 fee. -/
theorem C7_witness :
    executeMatch exCtx2 exMa2 exTa2 10000000 = .ok exMatchRes2 ∧
    exMatchRes2.makerCost + exMatchRes2.takerCost =
      exMatchRes2.yesCost + exMatchRes2.noCost + exMatchRes2.takerFee ∧
    exMatchRes2.vault = 10000000 ∧ exMatchRes2.feeRecipient = 4000 ∧
    exMatchRes2.makerUsdc + exMatchRes2.takerUsdc + exMatchRes2.vault +
      exMatchRes2.feeRecipient =
      exCtx2.makerUsdc + exCtx2.takerUsdc + exCtx2.vault + exCtx2.feeRecipient :=
  ⟨rfl,
   (C7_vault_accounting (show executeMatch exCtx2 exMa2 exTa2 10000000 =
     Except.ok exMatchRes2 from rfl)).1,
   rfl, rfl,
   (C7_vault_accounting (show executeMatch exCtx2 exMa2 exTa2 10000000 =
     Except.ok exMatchRes2 from rfl)).2.2.2.2⟩

def exSellerPos : UserPosition :=
  { owner := 3, market := 7, yesShares := 2000000, noShares := 0,
    yesCostBasis := 3000000, noCostBasis := 0, realizedPnl := 0,
    settled := false, payout := 0 }

def exBuyerPos : UserPosition :=
  { owner := 2, market := 7, yesShares := 0, noShares := 0,
    yesCostBasis := 0, noCostBasis := 0, realizedPnl := 0,
    settled := false, payout := 0 }

def exCloseCtx : CloseCtx where
  gs := exGlobal
  market := exMarket
  marketKey := 7
  feeRecipient := 0
  buyer := 2
  seller := 3
  buyerPosition := exBuyerPos
  sellerPosition := exSellerPos
  buyerUsdc := 1000000000
  sellerUsdc := 0
  now := 0

def exCloseRes : CloseResult :=
  (executeClose exCloseCtx ⟨Outcome.Yes, 500000, 1000000⟩).toOption.get
    (by decide)

/--
C4 counterexample: the claim computes the seller's realized P&L as
`transfer_amount − floor(c / h) × s`, but the source additionally divides
the subtracted term by `SHARE_MULTIPLIER`:
`transfer_amount − floor(floor(c / h) × s / 1_000_000)`.  With a seller
holding `h = 2_000_000` micro-shares at cost basis `c = 3_000_000`
selling `s = 1_000_000` at price 500_000 (`transfer_amount = 500_000`),
the code records P&L `499_999` while the claim's formula gives
`500_000 − 1 × 1_000_000 = −500_000`.
-/
theorem C4_counterexample :
    (executeClose exCloseCtx ⟨Outcome.Yes, 500000, 1000000⟩).map
      (fun r => r.realizedPnl) = .ok 499999 ∧
    (500000 : Int) -
      ((exCloseCtx.sellerPosition.yesCostBasis /
        exCloseCtx.sellerPosition.yesShares : Nat) : Int) * 1000000 =
      -500000 ∧
    (499999 : Int) ≠ -500000 :=
  ⟨rfl, by decide, by decide⟩

/--
C4 (amended): for every successful closing trade selling `s` shares by a
seller holding `h ≥ s` shares with cost basis `c`: the recorded realized
P&L equals `transfer_amount − floor(floor(c / h) × s / 1_000_000)` (the
per-micro-share basis times the size, scaled back down by the share
multiplier) and is accumulated into the seller's `realized_pnl` whenever
the `i64` addition does not overflow; the seller's cost basis is reduced
by `floor(c × s / h)` and their shares decrease by `s`.
-/
theorem C4_close_realized_pnl {ctx : CloseCtx} {args : CloseTradeArgs}
    {r : CloseResult} (h : executeClose ctx args = .ok r) :
    args.size ≤ ctx.sellerPosition.sharesOf args.outcome ∧
    r.realizedPnl = (r.transferAmount : Int) -
      ((ctx.sellerPosition.costBasisOf args.outcome /
        ctx.sellerPosition.sharesOf args.outcome * args.size /
        SHARE_MULTIPLIER : Nat) : Int) ∧
    r.sellerPosition.sharesOf args.outcome =
      ctx.sellerPosition.sharesOf args.outcome - args.size ∧
    r.sellerPosition.costBasisOf args.outcome =
      ctx.sellerPosition.costBasisOf args.outcome -
      ctx.sellerPosition.costBasisOf args.outcome * args.size /
        ctx.sellerPosition.sharesOf args.outcome ∧
    (I64_MIN ≤ ctx.sellerPosition.realizedPnl + r.realizedPnl ∧
     ctx.sellerPosition.realizedPnl + r.realizedPnl ≤ I64_MAX →
     r.sellerPosition.realizedPnl =
       ctx.sellerPosition.realizedPnl + r.realizedPnl) := by
  obtain ⟨h1, -, -, -, -, -, -, h8, h9, h10, h11⟩ := executeClose_ok h
  exact ⟨h1, h8, h9, h10, h11⟩

/-- Witness for C4 (amended): selling 1_000_000 of 2_000_000 YES
micro-shares with basis 3_000_000 at price 500_000 yields realized P&L
499_999, basis reduction to 1_500_000 and share reduction to 1_000_000. -/
theorem C4_witness :
    executeClose exCloseCtx ⟨Outcome.Yes, 500000, 1000000⟩ = .ok exCloseRes ∧
    exCloseRes.realizedPnl = 499999 ∧
    exCloseRes.sellerPosition.yesShares = 1000000 ∧
    exCloseRes.sellerPosition.yesCostBasis = 1500000 ∧
    exCloseRes.sellerPosition.realizedPnl = 499999 ∧
    exCloseRes.realizedPnl = (exCloseRes.transferAmount : Int) -
      ((exCloseCtx.sellerPosition.costBasisOf Outcome.Yes /
        exCloseCtx.sellerPosition.sharesOf Outcome.Yes * 1000000 /
        SHARE_MULTIPLIER : Nat) : Int) :=
  ⟨rfl, rfl, rfl, rfl, rfl,
   (C4_close_realized_pnl (show executeClose exCloseCtx
     ⟨Outcome.Yes, 500000, 1000000⟩ = Except.ok exCloseRes from rfl)).2.1⟩

/--
C8 counterexample: the claim says every accepted price is a multiple of
10_000, but `execute_close` (like `execute_match` on inline quotes) only
range-checks the price: a closing trade at the off-grid price 15_000
succeeds.
-/
theorem C8_counterexample :
    (executeClose exCloseCtx ⟨Outcome.Yes, 15000, 1000000⟩).isOk = true ∧
    ¬ (15000 % 10000 = 0) :=
  ⟨rfl, by decide⟩

/--
C8 (amended): every price accepted by a core operation lies in
`[10_000, 990_000]`; the 10_000 tick-grid restriction is additionally
enforced by order placement only — opening-trade execution (for either
counterparty's price, stored or inline) and closing-trade execution accept
any price in range.
-/
theorem C8_price_range :
    (∀ (gs : GlobalState) (mkt : Market) (mk : Nat) (now : Int) (u ub : Nat)
       (args : PlaceOrderArgs) (o : Order) (l : Nat),
       placeOrder gs mkt mk now u ub args = .ok (o, l) →
       MIN_PRICE ≤ args.price ∧ args.price ≤ MAX_PRICE ∧
       args.price % 10000 = 0) ∧
    (∀ (ctx : MatchCtx) (ma ta : PlaceOrderArgs) (ms : Nat) (r : MatchResult),
       executeMatch ctx ma ta ms = .ok r →
       MIN_PRICE ≤ (orderDataOf ctx.makerOrder ma).price ∧
       (orderDataOf ctx.makerOrder ma).price ≤ MAX_PRICE ∧
       MIN_PRICE ≤ (orderDataOf ctx.takerOrder ta).price ∧
       (orderDataOf ctx.takerOrder ta).price ≤ MAX_PRICE) ∧
    (∀ (ctx : CloseCtx) (args : CloseTradeArgs) (r : CloseResult),
       executeClose ctx args = .ok r →
       MIN_PRICE ≤ args.price ∧ args.price ≤ MAX_PRICE) := by
  refine ⟨?_, ?_, ?_⟩
  · intro gs mkt mk now u ub args o l h
    obtain ⟨-, -, hp1, hp2, ht, -⟩ := placeOrder_ok h
    exact ⟨hp1, hp2, ht⟩
  · intro ctx ma ta ms r h
    obtain ⟨-, -, -, -, -, -, -, -, -, -, -, -, -, -, hm1, hm2, ht1, ht2, -⟩ :=
      executeMatch_ok h
    exact ⟨hm1, hm2, ht1, ht2⟩
  · intro ctx args r h
    obtain ⟨-, hp1, hp2, -⟩ := executeClose_ok h
    exact ⟨hp1, hp2⟩

/-- Witness for C8 (amended) at three concrete accepted operations:
a placed order at price 500_000, an opening trade at 600_000 and a
closing trade at 500_000. -/
theorem C8_witness :
    placeOrder exGlobal exMarket 7 0 1 1000000000
      ⟨Side.Bid, Outcome.Yes, OrderType.Limit, 500000, 100000000, 500, 1⟩ =
      .ok (exPlaceA.1, 50000000) ∧
    (MIN_PRICE ≤ 500000 ∧ (500000 : Nat) ≤ MAX_PRICE ∧
      (500000 : Nat) % 10000 = 0) ∧
    executeMatch exCtx2 exMa2 exTa2 10000000 = .ok exMatchRes2 ∧
    MIN_PRICE ≤ (orderDataOf exCtx2.makerOrder exMa2).price ∧
    executeClose exCloseCtx ⟨Outcome.Yes, 500000, 1000000⟩ = .ok exCloseRes ∧
    MIN_PRICE ≤ (500000 : Nat) ∧ (500000 : Nat) ≤ MAX_PRICE :=
  ⟨rfl,
   C8_price_range.1 exGlobal exMarket 7 0 1 1000000000
     ⟨Side.Bid, Outcome.Yes, OrderType.Limit, 500000, 100000000, 500, 1⟩
     exPlaceA.1 50000000 rfl,
   rfl,
   (C8_price_range.2.1 exCtx2 exMa2 exTa2 10000000 exMatchRes2 rfl).1,
   rfl,
   (C8_price_range.2.2 exCloseCtx ⟨Outcome.Yes, 500000, 1000000⟩ exCloseRes
     rfl).1,
   (C8_price_range.2.2 exCloseCtx ⟨Outcome.Yes, 500000, 1000000⟩ exCloseRes
     rfl).2⟩

theorem liftOpt_some {α : Type} (a : α) (e : DegenError) :
    liftOpt (some a) e = .ok a := rfl

theorem updateStoredOrder_eval {o : Order} {ms : Nat}
    (hb : o.filledSize + ms ≤ U64_MAX) :
    updateStoredOrder (some o) ms = Except.ok (some { o with
      filledSize := o.filledSize + ms
      status := if o.filledSize + ms ≥ o.size then OrderStatus.Filled
                else OrderStatus.PartialFill }) := by
  have hadd : checkedAdd o.filledSize ms = some (o.filledSize + ms) := by
    unfold checkedAdd
    rw [if_pos hb]
  simp only [updateStoredOrder, fillOrder, hadd, liftOpt_some]
  rfl

/--
The orders reachable through core operations, characterized by their
creation shape and fill steps: `place_order` creates an order with
`filled_size = 0`, status `Open` and size at least `MIN_ORDER_SIZE`; each
`execute_match` in which the order is a stored party requires it active
and applies `updateStoredOrder` with a match size of at least
`MIN_ORDER_SIZE` (`cancel_order` deallocates the account, ending the
order's life).  The bridge conjuncts of the C1 theorem connect these
steps to the actual instructions.
-/
inductive ReachableOrder : Order → Prop where
  | placed {o : Order} (hfill : o.filledSize = 0)
      (hstatus : o.status = OrderStatus.Open)
      (hsize : MIN_ORDER_SIZE ≤ o.size) : ReachableOrder o
  | filled {o o2 : Order} {ms : Nat} (hre : ReachableOrder o)
      (hactive : o.isActive) (hms : MIN_ORDER_SIZE ≤ ms)
      (hupd : updateStoredOrder (some o) ms = Except.ok (some o2)) :
      ReachableOrder o2

/--
C1 (amended): every order created by `place_order` is reachable and every
stored order updated by a successful `execute_match` steps to a reachable
order (bridge conjuncts); for every reachable order, `filled_size` is a
`u64` (hence ≥ 0), but `filled_size ≤ size` is not an invariant — a match
whose `match_size` exceeds the order's remaining size overfills it;
outside the terminal `Cancelled`/`Expired` states the status relation is:
`Open` implies `filled_size = 0`, `PartialFill` iff
`0 < filled_size < size`, and `Filled` iff `filled_size ≥ size` (not
`filled_size = size`).
-/
theorem C1_order_fill_status :
    (∀ (gs : GlobalState) (mkt : Market) (mk : Nat) (now : Int) (u ub : Nat)
       (args : PlaceOrderArgs) (o : Order) (l : Nat),
       placeOrder gs mkt mk now u ub args = .ok (o, l) → ReachableOrder o) ∧
    (∀ (ctx : MatchCtx) (ma ta : PlaceOrderArgs) (ms : Nat) (r : MatchResult)
       (o o2 : Order),
       executeMatch ctx ma ta ms = .ok r → ctx.makerOrder = some o →
       r.makerOrder = some o2 → ReachableOrder o → ReachableOrder o2) ∧
    (∀ (ctx : MatchCtx) (ma ta : PlaceOrderArgs) (ms : Nat) (r : MatchResult)
       (o o2 : Order),
       executeMatch ctx ma ta ms = .ok r → ctx.takerOrder = some o →
       r.takerOrder = some o2 → ReachableOrder o → ReachableOrder o2) ∧
    (∀ o : Order, ReachableOrder o →
      0 < o.size ∧
      (o.status = OrderStatus.Open → o.filledSize = 0) ∧
      (o.status = OrderStatus.PartialFill ↔
        0 < o.filledSize ∧ o.filledSize < o.size) ∧
      (o.status = OrderStatus.Filled ↔ o.size ≤ o.filledSize)) := by
  refine ⟨?_, ?_, ?_, ?_⟩
  · intro gs mkt mk now u ub args o l h
    obtain ⟨ho, -, -, -, -, hmin, -⟩ := placeOrder_ok h
    subst ho
    exact ReachableOrder.placed rfl rfl hmin
  · intro ctx ma ta ms r o o2 h ho ho2 hre
    obtain ⟨-, -, -, -, -, -, -, -, -, -, -, -, -, -, -, -, -, -, hms, -,
      hupd, -⟩ := executeMatch_ok h
    obtain ⟨hact, hbound, hro⟩ := hupd _ ho
    rw [ho2] at hro
    injection hro with hro
    subst hro
    exact ReachableOrder.filled hre hact hms (updateStoredOrder_eval hbound)
  · intro ctx ma ta ms r o o2 h ho ho2 hre
    obtain ⟨-, -, -, -, -, -, -, -, -, -, -, -, -, -, -, -, -, -, hms, -, -,
      hupd⟩ := executeMatch_ok h
    obtain ⟨hact, hbound, hro⟩ := hupd _ ho
    rw [ho2] at hro
    injection hro with hro
    subst hro
    exact ReachableOrder.filled hre hact hms (updateStoredOrder_eval hbound)
  · intro o hre
    induction hre with
    | placed hfill hstatus hsize =>
      simp only [MIN_ORDER_SIZE] at hsize
      refine ⟨by omega, fun _ => hfill, ?_, ?_⟩
      · rw [hstatus, hfill]
        constructor
        · intro hcon
          cases hcon
        · intro hcon
          exfalso
          omega
      · rw [hstatus, hfill]
        constructor
        · intro hcon
          cases hcon
        · intro hle
          exfalso
          omega
    | filled hre2 hact hms hupd ih =>
      rename_i o1 o2 ms
      obtain ⟨-, hsome⟩ := updateStoredOrder_ok hupd
      obtain ⟨hbnd, heq⟩ := hsome _ rfl
      injection heq with heq
      subst heq
      simp only [MIN_ORDER_SIZE] at hms
      obtain ⟨hsz, -, -, -⟩ := ih
      dsimp only
      by_cases hge : o1.filledSize + ms ≥ o1.size
      · rw [if_pos hge]
        refine ⟨hsz, ?_, ?_, ?_⟩
        · intro hcon
          cases hcon
        · constructor
          · intro hcon
            cases hcon
          · intro hcon
            exfalso
            omega
        · exact ⟨fun _ => hge, fun _ => rfl⟩
      · rw [if_neg hge]
        refine ⟨hsz, ?_, ?_, ?_⟩
        · intro hcon
          cases hcon
        · exact ⟨fun _ => ⟨by omega, by omega⟩, fun _ => rfl⟩
        · constructor
          · intro hcon
            cases hcon
          · intro hle
            exfalso
            omega

def exMaSmall : PlaceOrderArgs := ⟨.Bid, .Yes, .Limit, 500000, 1000, 500, 1⟩
def exTaSmall : PlaceOrderArgs := ⟨.Ask, .Yes, .Limit, 500000, 2000, 500, 2⟩

def exPlaceSmall : Order × Nat :=
  (placeOrder exGlobal exMarket 7 0 1 1000000000 exMaSmall).toOption.get
    (by decide)

def exCtxOverfill : MatchCtx :=
  { exCtx2 with vault := 500, makerOrder := some exPlaceSmall.1 }

/--
C1 counterexample: `execute_match` never compares `match_size` with a
stored order's remaining size, so a placed order of size 1000 matched
with `match_size = 2000` ends with `filled_size = 2000 > size = 1000` —
`filled_size ≤ size` is violated, and the order is `Filled` although
`filled_size ≠ size`.
-/
theorem C1_counterexample :
    placeOrder exGlobal exMarket 7 0 1 1000000000 exMaSmall =
      .ok (exPlaceSmall.1, 500) ∧
    exCtxOverfill.makerOrder = some exPlaceSmall.1 ∧
    (executeMatch exCtxOverfill exMaSmall exTaSmall 2000).map
      (fun r => r.makerOrder.map fun o => (o.filledSize, o.size, o.status)) =
      .ok (some (2000, 1000, OrderStatus.Filled)) ∧
    ¬ ((2000 : Nat) ≤ 1000) ∧ (2000 : Nat) ≠ 1000 :=
  ⟨rfl, rfl, rfl, by decide, by decide⟩

/-- Witness for C1 (amended): the concretely placed order of size 1000 is
reachable, and the status relation holds for it. -/
theorem C1_witness :
    ReachableOrder exPlaceSmall.1 ∧
    (exPlaceSmall.1.status = OrderStatus.Filled ↔
      exPlaceSmall.1.size ≤ exPlaceSmall.1.filledSize) :=
  have hr : ReachableOrder exPlaceSmall.1 :=
    C1_order_fill_status.1 exGlobal exMarket 7 0 1 1000000000 exMaSmall
      exPlaceSmall.1 500 rfl
  ⟨hr, (C1_order_fill_status.2.2.2 exPlaceSmall.1 hr).2.2.2⟩

end Degen
